import Mathlib

/-!
# NGO Impact Tracker: ingestion pipeline, report store and dashboard

A shallow embedding of `backend/src/jobQueue.js`, `backend/src/db.js` and the
`POST /report` handler of `backend/src/server.js`.

Conventions of the embedding:

* a JavaScript number is a `Num`: `NaN`, the two infinities, or a finite value,
  given by the rational it denotes; the sum of two finite values, with the
  rounding of doubles and their overflow to an infinity, is a parameter
  `plus : Rat → Rat → Num` of every function that adds;
* a JavaScript value that may sit in a numeric position is a `JSVal`;
* a text value that may be absent is an `Option String` (`none` is `undefined`);
* the built-in `Number` on strings is a parameter `toNumber : String → Num` of
  every function that calls it, so the theorems hold for each reading of it;
* asynchronous effects (file system, record store, job ledger) are resolved by
  an explicit environment telling which calls throw and with which message.
-/

namespace NgoTracker

/-! ## JavaScript values -/

/-- A JavaScript number. -/
inductive Num where
  | nan : Num
  | fin (q : Rat) : Num
  | posInf : Num
  | negInf : Num
  deriving DecidableEq, Repr

namespace Num

/-- The number `0`. -/
def zero : Num := fin 0

/-- `Number.isNaN`. -/
def isNaN : Num → Bool
  | nan => true
  | _ => false

/-- The comparison `n < 0`. -/
def ltZero : Num → Bool
  | fin q => decide (q < 0)
  | negInf => true
  | _ => false

/-- Truthiness of a number: everything except `0` and `NaN`. -/
def truthy : Num → Bool
  | nan => false
  | fin q => decide (q ≠ 0)
  | _ => true

/-- The operator `+` on numbers. The sum of two finite values is the parameter
`plus`, the addition of doubles: it rounds, and it gives an infinity on overflow. -/
def add (plus : Rat → Rat → Num) : Num → Num → Num
  | nan, _ => nan
  | _, nan => nan
  | fin a, fin b => plus a b
  | fin _, posInf => posInf
  | fin _, negInf => negInf
  | posInf, negInf => nan
  | posInf, _ => posInf
  | negInf, posInf => nan
  | negInf, _ => negInf

end Num

/-- A JavaScript value as it occurs in a numeric position of a record. -/
inductive JSVal where
  | undef : JSVal
  | null : JSVal
  | bool (b : Bool) : JSVal
  | num (n : Num) : JSVal
  | str (s : String) : JSVal
  deriving DecidableEq, Repr

namespace JSVal

/-- Truthiness, as tested by `!v` and by `v || w`. -/
def truthy : JSVal → Bool
  | undef => false
  | null => false
  | bool b => b
  | num n => n.truthy
  | str s => decide (s ≠ "")

/-- The operator `v || w`. -/
def or (v w : JSVal) : JSVal := if v.truthy then v else w

/-- The conversion `Number(v)`; on strings it is the parameter `toNumber`. -/
def toNum (toNumber : String → Num) : JSVal → Num
  | undef => Num.nan
  | null => Num.zero
  | bool b => if b then Num.fin 1 else Num.zero
  | num n => n
  | str s => toNumber s

/-- A text value that may be absent, as a value. -/
def ofText : Option String → JSVal
  | none => undef
  | some s => str s

end JSVal

/-- The expression `Number(v || 0)`. -/
def numberOrZero (toNumber : String → Num) (v : JSVal) : Num :=
  JSVal.toNum toNumber (v.or (JSVal.num Num.zero))

/-- Truthiness of a text value that may be absent. -/
def textTruthy : Option String → Bool
  | none => false
  | some s => decide (s ≠ "")

/-- The operator `a || b` on text values that may be absent. -/
def textOr (a b : Option String) : Option String := if textTruthy a then a else b

/-- White space and line terminators, the characters `String.prototype.trim` strips. -/
def isJsSpace (c : Char) : Bool :=
  let n := c.toNat
  n = 0x09 || n = 0x0A || n = 0x0B || n = 0x0C || n = 0x0D || n = 0x20 || n = 0xA0 ||
  n = 0x1680 || (0x2000 ≤ n && n ≤ 0x200A) || n = 0x2028 || n = 0x2029 || n = 0x202F ||
  n = 0x205F || n = 0x3000 || n = 0xFEFF

/-- The characters of `s.trim()`. -/
def trimChars (cs : List Char) : List Char :=
  ((cs.dropWhile isJsSpace).reverse.dropWhile isJsSpace).reverse

/-- The method `s.trim()`. -/
def jsTrim (s : String) : String := ⟨trimChars s.data⟩

/-- The class `\d` of a regular expression without flags. -/
def isDigit (c : Char) : Bool := decide (48 ≤ c.toNat) && decide (c.toNat ≤ 57)

/-- The test `/^\d{4}-\d{2}$/.test(s)` on the characters of `s`. -/
def monthPatternChars : List Char → Bool
  | [a, b, c, d, h, e, f] =>
      isDigit a && isDigit b && isDigit c && isDigit d && decide (h = '-') &&
      isDigit e && isDigit f
  | _ => false

/-- The test `monthPattern.test(s)`. -/
def monthPattern (s : String) : Bool := monthPatternChars s.data

/-! ## Record normalizer and validator (`jobQueue.js`) -/

/-- A parsed CSV record: column name to text, `none` for a column that is absent. -/
abbrev Row := String → Option String

/-- The result of `normalizeRow`, which is the argument of `validateRow`. -/
structure NormRow where
  ngoId : Option String
  monthRaw : Option String
  peopleHelped : JSVal
  eventsConducted : JSVal
  fundsUtilized : JSVal
  deriving DecidableEq, Repr

/-- The function `normalizeRow` of `jobQueue.js`. -/
def normalizeRow (row : Row) : NormRow :=
  let ngoId :=
    textOr (textOr (textOr (textOr (row "ngo_id") (row "NGO_ID")) (row "ngoId"))
      (row "NGO ID")) (some "")
  let monthRaw :=
    textOr (textOr (textOr (textOr (row "month") (row "Month")) (row "MONTH"))
      (row "Month ")) (some "")
  let peopleHelped :=
    textOr (textOr (textOr (textOr (row "people_helped") (row "peopleHelped"))
      (row "People_Helped")) (row "People Helped")) (row "People Helped ")
  let eventsConducted :=
    textOr (textOr (textOr (row "events_conducted") (row "eventsConducted"))
      (row "Events_Conducted")) (row "Events Conducted")
  let fundsUtilized :=
    textOr (textOr (textOr (row "funds_utilized") (row "fundsUtilized"))
      (row "Funds_Utilized")) (row "Funds Utilized")
  { ngoId := ngoId, monthRaw := monthRaw,
    peopleHelped := JSVal.ofText peopleHelped,
    eventsConducted := JSVal.ofText eventsConducted,
    fundsUtilized := JSVal.ofText fundsUtilized }

/-- The result of `validateRow`. -/
structure Validation where
  isValid : Bool
  errors : List String
  month : Option String
  people : Num
  events : Num
  funds : Num
  deriving DecidableEq, Repr

/-- The statement `if (c) errors.push(msg)`. -/
def pushIf (c : Bool) (msg : String) (errors : List String) : List String :=
  if c then errors ++ [msg] else errors

/-- The function `validateRow` of `jobQueue.js`. -/
def validateRow (toNumber : String → Num) (r : NormRow) : Validation :=
  let errors : List String := []
  let errors := pushIf (!textTruthy r.ngoId) "Missing NGO ID" errors
  let errors := pushIf (!textTruthy r.monthRaw) "Missing month" errors
  let month := r.monthRaw.map jsTrim
  let errors := pushIf (!monthPattern ((textOr month (some "")).getD "")) "Month must be YYYY-MM" errors
  let people := numberOrZero toNumber r.peopleHelped
  let events := numberOrZero toNumber r.eventsConducted
  let funds := numberOrZero toNumber r.fundsUtilized
  let errors := pushIf (people.isNaN || people.ltZero) "people_helped must be a non-negative number" errors
  let errors := pushIf (events.isNaN || events.ltZero) "events_conducted must be a non-negative number" errors
  let errors := pushIf (funds.isNaN || funds.ltZero) "funds_utilized must be a non-negative number" errors
  { isValid := decide (errors.length = 0), errors := errors, month := month,
    people := people, events := events, funds := funds }

/-! ## Report store (`db.js`) -/

/-- The argument of `upsertReport`. -/
structure Report where
  ngo_id : String
  month : String
  people_helped : JSVal
  events_conducted : JSVal
  funds_utilized : JSVal
  deriving DecidableEq, Repr

/-- A document of the reports collection: the report and its `ngo_month` field. -/
structure ReportDoc where
  report : Report
  ngo_month : String
  deriving DecidableEq, Repr

/-- The template string built by `upsertReport` for `ngo_month`. -/
def ngoMonthKey (r : Report) : String := r.ngo_id ++ ":" ++ r.month

/-- The reports collection, in insertion order. -/
abbrev ReportsDb := List ReportDoc

/-- Replacement of the first document matching the query on `ngo_month`, if any. -/
def replaceFirst (key : String) (d : ReportDoc) : ReportsDb → Option ReportsDb
  | [] => none
  | x :: xs =>
      if x.ngo_month = key then some (d :: xs)
      else (replaceFirst key d xs).map (fun ys => x :: ys)

/-- The function `upsertReport` of `db.js`, when the store accepts the write:
the first document with the same `ngo_month` is replaced in full, and a new
document is inserted when there is none. -/
def upsertReport (db : ReportsDb) (r : Report) : ReportsDb :=
  let d : ReportDoc := { report := r, ngo_month := ngoMonthKey r }
  match replaceFirst (ngoMonthKey r) d db with
  | some db' => db'
  | none => db ++ [d]

/-! ## Single-record submission (`server.js`, `POST /report`) -/

/-- The fields read from the request body. -/
structure ReportBody where
  ngoId : Option String
  month : Option String
  peopleHelped : JSVal
  eventsConducted : JSVal
  fundsUtilized : JSVal
  deriving DecidableEq, Repr

/-- The validation part of the `POST /report` handler: either the message of the
400 response, or the report handed to `upsertReport`. -/
def postReport (toNumber : String → Num) (b : ReportBody) : Except String Report :=
  if !textTruthy b.ngoId || !textTruthy b.month then
    .error "ngoId and month are required"
  else
    let ngoId := b.ngoId.getD ""
    let month := b.month.getD ""
    if !monthPattern month then
      .error "month must be YYYY-MM"
    else
      let people := numberOrZero toNumber b.peopleHelped
      let events := numberOrZero toNumber b.eventsConducted
      let funds := numberOrZero toNumber b.fundsUtilized
      if [people, events, funds].any (fun n => n.isNaN || n.ltZero) then
        .error "Numeric fields must be non-negative numbers"
      else
        .ok { ngo_id := jsTrim ngoId, month := month,
              people_helped := JSVal.num people,
              events_conducted := JSVal.num events,
              funds_utilized := JSVal.num funds }

/-- The report `processJob` hands to `upsertReport` for a row that passed validation. -/
def rowReport (n : NormRow) (v : Validation) : Report :=
  { ngo_id := jsTrim (n.ngoId.getD ""), month := v.month.getD "",
    people_helped := JSVal.num v.people,
    events_conducted := JSVal.num v.events,
    funds_utilized := JSVal.num v.funds }

/-- A sample reading of `Number` on strings: unsigned decimal integers, and `NaN`
for every other text. It is used to evaluate the functions on concrete inputs. -/
def decimalNumber (s : String) : Num :=
  if s.data ≠ [] ∧ s.data.all isDigit then
    Num.fin ((s.data.foldl (fun n c => 10 * n + (c.toNat - 48)) 0 : Nat) : Rat)
  else Num.nan

/-! ## Job ledger (`db.js`) -/

/-- The values of the `status` field. -/
inductive Status where
  | pending | processing | completed | failed
  deriving DecidableEq, Repr

/-- An element of the array whose `JSON.stringify` is kept in `error_messages`:
a row entry `{row, errors}` or a bare message. -/
inductive ErrorEntry where
  | row (row : Nat) (errors : List String) : ErrorEntry
  | message (msg : String) : ErrorEntry
  deriving DecidableEq, Repr

/-- A document of the jobs collection. The field `error_messages` holds the array
that `JSON.parse` gives back from the stored text; `id` and `updated_at` are left out. -/
structure Job where
  status : Status
  file_name : String
  total_rows : Nat
  processed_rows : Nat
  success_count : Nat
  failure_count : Nat
  error_messages : List ErrorEntry
  deriving DecidableEq, Repr

/-- The second argument of `updateJobProgress`. -/
structure Progress where
  processed_rows : Nat
  success_count : Nat
  failure_count : Nat
  error_messages : List ErrorEntry
  deriving DecidableEq, Repr

/-- The function `updateJobTotals` of `db.js`, on the job's document. -/
def updateJobTotals (j : Job) (totalRows : Nat) : Job := { j with total_rows := totalRows }

/-- The function `updateJobProgress` of `db.js`, on the job's document. -/
def updateJobProgress (j : Job) (p : Progress) : Job :=
  { j with processed_rows := p.processed_rows, success_count := p.success_count,
           failure_count := p.failure_count, error_messages := p.error_messages }

/-- The function `markJobProcessing` of `db.js`, on the job's document. -/
def markJobProcessing (j : Job) : Job := { j with status := Status.processing }

/-- The function `completeJob` of `db.js`, on the job's document. -/
def completeJob (j : Job) : Job := { j with status := Status.completed }

/-- The function `failJob` of `db.js`, on the job's document. -/
def failJob (j : Job) (message : String) : Job :=
  { j with status := Status.failed, error_messages := [ErrorEntry.message message] }

/-- A write to the jobs collection that went through. -/
inductive LedgerWrite where
  | insertJob (job : Job) : LedgerWrite
  | updateJobTotals (totalRows : Nat) : LedgerWrite
  | updateJobProgress (p : Progress) : LedgerWrite
  | markJobProcessing : LedgerWrite
  | completeJob : LedgerWrite
  | failJob (message : String) : LedgerWrite
  deriving DecidableEq, Repr

/-- The effect of one write on the job's document (`none`: no document yet);
an update that finds no document changes nothing. -/
def LedgerWrite.apply (doc : Option Job) : LedgerWrite → Option Job
  | .insertJob job => some job
  | .updateJobTotals n => doc.map (fun j => NgoTracker.updateJobTotals j n)
  | .updateJobProgress p => doc.map (fun j => NgoTracker.updateJobProgress j p)
  | .markJobProcessing => doc.map NgoTracker.markJobProcessing
  | .completeJob => doc.map NgoTracker.completeJob
  | .failJob m => doc.map (fun j => NgoTracker.failJob j m)

/-- The status a write stores, when it stores one. -/
def LedgerWrite.status : LedgerWrite → Option Status
  | .insertJob job => some job.status
  | .markJobProcessing => some Status.processing
  | .completeJob => some Status.completed
  | .failJob _ => some Status.failed
  | _ => none

/-- The progress record a write stores, when it is a progress update. -/
def LedgerWrite.progress : LedgerWrite → Option Progress
  | .updateJobProgress p => some p
  | _ => none

/-- The job's document after a sequence of writes. -/
def jobAfter (ws : List LedgerWrite) : Option Job := ws.foldl LedgerWrite.apply none

/-- The status values written, in order. -/
def statusWrites (ws : List LedgerWrite) : List Status := ws.filterMap LedgerWrite.status

/-- The progress updates written, in order. -/
def progressWrites (ws : List LedgerWrite) : List Progress := ws.filterMap LedgerWrite.progress

/-! ## Ingestion orchestrator (`jobQueue.js`) -/

/-- The outcome of every effect of one run of `enqueueJob` and `processJob`.
For a call that returns nothing, `none` means it returns and `some m` that it
throws an error whose `message` is `m`. -/
structure Env where
  /-- Outcome of `insertJob`. -/
  insertJob : Option String
  /-- Outcome of `fs.stat`: the value of `stats.isFile()`, or the thrown message. -/
  stat : Except String Bool
  /-- Outcome of `fs.readFile` followed by `parse` in `enqueueJob`. -/
  parseUpload : Except String (List Row)
  /-- Outcome of `updateJobTotals`. -/
  updateJobTotals : Option String
  /-- Outcome of the `updateJobProgress` call of `enqueueJob`. -/
  resetProgress : Option String
  /-- Outcome of `fs.rename`. -/
  rename : Option String
  /-- Outcome of `markJobProcessing`. -/
  markJobProcessing : Option String
  /-- Outcome of `fs.readFile` followed by `parse` in `processJob`. -/
  parseFile : Except String (List Row)
  /-- Whether `upsertReport` returns for the row at the given 0-based position. -/
  upsertOk : Nat → Bool
  /-- Outcome of `updateJobProgress` after the row at the given 0-based position. -/
  updateJobProgress : Nat → Option String
  /-- Outcome of `completeJob`. -/
  completeJob : Option String
  /-- Whether `failJob` returns. -/
  failJobOk : Bool

/-- The expression `err.message || dflt`. -/
def errMessage (m dflt : String) : String := if m ≠ "" then m else dflt

/-- The local variables of the row loop of `processJob`, the reports collection
and the ledger writes made so far. -/
structure LoopState where
  processedRows : Nat
  successCount : Nat
  failureCount : Nat
  errors : List ErrorEntry
  reports : ReportsDb
  writes : List LedgerWrite
  deriving DecidableEq, Repr

/-- The body of the row loop up to and including `processedRows += 1`. The row's
position, which selects the outcome of `upsertReport`, is the value of
`processedRows` when the iteration starts. -/
def rowStep (toNumber : String → Num) (env : Env) (row : Row) (st : LoopState) : LoopState :=
  let normalized := normalizeRow row
  let v := validateRow toNumber normalized
  let st1 : LoopState :=
    if !v.isValid then
      { st with failureCount := st.failureCount + 1,
                errors := st.errors ++ [ErrorEntry.row (st.processedRows + 1) v.errors] }
    else if env.upsertOk st.processedRows then
      { st with reports := upsertReport st.reports (rowReport normalized v),
                successCount := st.successCount + 1 }
    else
      { st with failureCount := st.failureCount + 1,
                errors := st.errors ++ [ErrorEntry.row (st.processedRows + 1) ["DB error"]] }
  { st1 with processedRows := st1.processedRows + 1 }

/-- The progress record the loop hands to `updateJobProgress`. -/
def LoopState.progress (st : LoopState) : Progress :=
  { processed_rows := st.processedRows, success_count := st.successCount,
    failure_count := st.failureCount, error_messages := st.errors }

/-- The row loop of `processJob`: the state when the loop is left, and the message
of the error that left it, if one was thrown by `updateJobProgress`. -/
def rowLoop (toNumber : String → Num) (env : Env) : List Row → LoopState → LoopState × Option String
  | [], st => (st, none)
  | row :: rest, st =>
      let st1 := rowStep toNumber env row st
      match env.updateJobProgress st.processedRows with
      | some m => (st1, some m)
      | none =>
          rowLoop toNumber env rest
            { st1 with writes := st1.writes ++ [LedgerWrite.updateJobProgress st1.progress] }

/-- The `catch` blocks: the write made by `failJob(jobId, err.message || dflt)`. -/
def failWrites (env : Env) (m dflt : String) : List LedgerWrite :=
  if env.failJobOk then [LedgerWrite.failJob (errMessage m dflt)] else []

/-- The state in which the row loop of `processJob` starts. -/
def loopStart (reports : ReportsDb) : LoopState :=
  { processedRows := 0, successCount := 0, failureCount := 0, errors := [],
    reports := reports, writes := [] }

/-- The function `processJob`: the reports collection afterwards and the ledger
writes it made. -/
def processJob (toNumber : String → Num) (env : Env) (reports : ReportsDb) :
    ReportsDb × List LedgerWrite :=
  match env.parseFile with
  | .error m => (reports, failWrites env m "Processing failed")
  | .ok rows =>
      match rowLoop toNumber env rows (loopStart reports) with
      | (st, some m) => (st.reports, st.writes ++ failWrites env m "Processing failed")
      | (st, none) =>
          match env.completeJob with
          | some m => (st.reports, st.writes ++ failWrites env m "Processing failed")
          | none => (st.reports, st.writes ++ [LedgerWrite.completeJob])

/-- The document `enqueueJob` inserts. -/
def initialJob (fileName : String) : Job :=
  { status := Status.pending, file_name := fileName, total_rows := 0, processed_rows := 0,
    success_count := 0, failure_count := 0, error_messages := [] }

/-- The `try` block of the timer callback of `enqueueJob`, up to `markJobProcessing`:
the ledger writes made, and the message of the error thrown, if any. -/
def startJob (env : Env) : List LedgerWrite × Option String :=
  match env.stat with
  | .error m => ([], some m)
  | .ok isFile =>
      if !isFile then ([], some "Upload not found")
      else
        match env.parseUpload with
        | .error m => ([], some m)
        | .ok rows =>
            match env.updateJobTotals with
            | some m => ([], some m)
            | none =>
                let w1 := [LedgerWrite.updateJobTotals rows.length]
                match env.resetProgress with
                | some m => (w1, some m)
                | none =>
                    let w2 := w1 ++ [LedgerWrite.updateJobProgress
                      { processed_rows := 0, success_count := 0, failure_count := 0,
                        error_messages := [] }]
                    match env.rename with
                    | some m => (w2, some m)
                    | none =>
                        match env.markJobProcessing with
                        | some m => (w2, some m)
                        | none => (w2 ++ [LedgerWrite.markJobProcessing], none)

/-- The function `enqueueJob` together with the `processJob` it schedules: the
reports collection afterwards and all ledger writes of the run. -/
def runJob (toNumber : String → Num) (env : Env) (fileName : String) (reports : ReportsDb) :
    ReportsDb × List LedgerWrite :=
  match env.insertJob with
  | some _ => (reports, [])
  | none =>
      let w0 := [LedgerWrite.insertJob (initialJob fileName)]
      match startJob env with
      | (ws, some m) => (reports, w0 ++ ws ++ failWrites env m "Failed to start job")
      | (ws, none) =>
          let out := processJob toNumber env reports
          (out.1, w0 ++ ws ++ out.2)

/-! ## Dashboard aggregator (`db.js`) -/

/-- The accumulator of the `reduce` in `getDashboard`; the `Set` is kept as the
list of its elements in insertion order. -/
structure Aggregate where
  totalNgos : List String
  totalPeopleHelped : Num
  totalEventsConducted : Num
  totalFundsUtilized : Num
  deriving DecidableEq, Repr

/-- The method `Set.prototype.add`. -/
def setAdd (s : List String) (x : String) : List String := if x ∈ s then s else s ++ [x]

/-- The callback of the `reduce` in `getDashboard`. -/
def aggregateStep (toNumber : String → Num) (plus : Rat → Rat → Num) (acc : Aggregate)
    (r : Report) : Aggregate :=
  { totalNgos := setAdd acc.totalNgos r.ngo_id,
    totalPeopleHelped := acc.totalPeopleHelped.add plus (numberOrZero toNumber r.people_helped),
    totalEventsConducted :=
      acc.totalEventsConducted.add plus (numberOrZero toNumber r.events_conducted),
    totalFundsUtilized := acc.totalFundsUtilized.add plus (numberOrZero toNumber r.funds_utilized) }

/-- The result of `getDashboard`. -/
structure Dashboard where
  totalNgosReporting : Nat
  totalPeopleHelped : Num
  totalEventsConducted : Num
  totalFundsUtilized : Num
  deriving DecidableEq, Repr

/-- The query `reportsDb.find({ month })`. -/
def findByMonth (db : ReportsDb) (month : String) : List Report :=
  (db.filter (fun d => decide (d.report.month = month))).map ReportDoc.report

/-- The function `getDashboard` of `db.js`. -/
def getDashboard (toNumber : String → Num) (plus : Rat → Rat → Num) (db : ReportsDb)
    (month : String) : Dashboard :=
  let reports := findByMonth db month
  let aggregate := reports.foldl (aggregateStep toNumber plus)
    { totalNgos := [], totalPeopleHelped := Num.zero, totalEventsConducted := Num.zero,
      totalFundsUtilized := Num.zero }
  { totalNgosReporting := aggregate.totalNgos.length,
    totalPeopleHelped := aggregate.totalPeopleHelped,
    totalEventsConducted := aggregate.totalEventsConducted,
    totalFundsUtilized := aggregate.totalFundsUtilized }

/-! ## The error list as the specification words it -/

/-- The entry the specification asks for the row at 0-based position `i`: one entry
with the 1-based position when the row fails validation or its write fails, none
when the row is stored. -/
def specRowEntry (toNumber : String → Num) (env : Env) (i : Nat) (row : Row) : Option ErrorEntry :=
  let v := validateRow toNumber (normalizeRow row)
  if v.isValid = false then some (ErrorEntry.row (i + 1) v.errors)
  else if env.upsertOk i = false then some (ErrorEntry.row (i + 1) ["DB error"])
  else none

/-- The error list the specification asks for rows that sit at the positions
`k`, `k + 1`, ... of the source: the entries of the failed rows, in source order. -/
def specErrors (toNumber : String → Num) (env : Env) (k : Nat) (rows : List Row) : List ErrorEntry :=
  (rows.enumFrom k).filterMap (fun ir => specRowEntry toNumber env ir.1 ir.2)

/-! ## Sample inputs -/

/-- A CSV record with the columns `ngo_id`, `month` and `people_helped`. -/
def sampleRow (ngoId month people : String) : Row := fun k =>
  if k = "ngo_id" then some ngoId
  else if k = "month" then some month
  else if k = "people_helped" then some people
  else none

/-- A batch of three records whose second record has no organization id. -/
def sampleRows : List Row :=
  [sampleRow "NGO1" "2025-01" "10", sampleRow "" "2025-01" "5", sampleRow "NGO3" "2025-01" "7"]

/-- A run in which no effect fails, on the batch `sampleRows`. -/
def sampleEnv : Env :=
  { insertJob := none, stat := .ok true, parseUpload := .ok sampleRows,
    updateJobTotals := none, resetProgress := none, rename := none,
    markJobProcessing := none, parseFile := .ok sampleRows,
    upsertOk := fun _ => true, updateJobProgress := fun _ => none,
    completeJob := none, failJobOk := true }

/-- A run in which `fs.stat` throws: the upload is gone when the timer fires. -/
def envMissingUpload : Env := { sampleEnv with stat := .error "ENOENT: no such file or directory" }

/-- A job on which one progress update has recorded a failed second row. -/
def jobWithRowError : Job :=
  { status := Status.processing, file_name := "reports.csv", total_rows := 3,
    processed_rows := 2, success_count := 1, failure_count := 1,
    error_messages := [ErrorEntry.row 2 ["Missing NGO ID"]] }

/-- A run on `sampleRows` in which the third `updateJobProgress` throws. -/
def envLedgerFailure : Env :=
  { sampleEnv with
    updateJobProgress := fun i => if i = 2 then some "ledger unavailable" else none }

/-- The `ngo_month` values of a collection. -/
def keysOf (db : ReportsDb) : List String := db.map ReportDoc.ngo_month

/-- The document `upsertReport` writes for a report. -/
def docOf (r : Report) : ReportDoc := { report := r, ngo_month := ngoMonthKey r }

/-- The collection after a sequence of `upsertReport` calls on an empty collection. -/
def upsertAll (calls : List Report) : ReportsDb := calls.foldl upsertReport []

/-- The most recent call of a sequence that satisfies `p`. -/
def lastCall (p : Report → Bool) (calls : List Report) : Option Report := calls.reverse.find? p

/-- Whether two reports are for the same (organization, month) pair. -/
def samePair (a b : Report) : Bool := decide (a.ngo_id = b.ngo_id ∧ a.month = b.month)

/-- A report whose organization id contains a colon. -/
def reportColonId : Report :=
  { ngo_id := "N:1", month := "2025-01", people_helped := JSVal.num (Num.fin 10),
    events_conducted := JSVal.num (Num.fin 1), funds_utilized := JSVal.num (Num.fin 100) }

/-- A report for another pair whose `ngo_month` is the one of `reportColonId`. -/
def reportColonMonth : Report :=
  { ngo_id := "N", month := "1:2025-01", people_helped := JSVal.num (Num.fin 20),
    events_conducted := JSVal.num (Num.fin 2), funds_utilized := JSVal.num (Num.fin 200) }

/-- Whether a stored value is a finite number. -/
def JSVal.isFinite : JSVal → Bool
  | .num (.fin _) => true
  | _ => false

/-- The rational a stored finite number stands for, and `0` for every other value. -/
def JSVal.finValue : JSVal → Rat
  | .num (.fin q) => q
  | _ => 0

/-- A collection, written by hand rather than built by `upsertReport`, with three reports
for `2025-01`, two of them of the same organization, and one report for `2025-02`. -/
def sampleDb : ReportsDb :=
  [ { report := { ngo_id := "NGO1", month := "2025-01", people_helped := JSVal.num (Num.fin 10),
                  events_conducted := JSVal.num (Num.fin 0), funds_utilized := JSVal.num (Num.fin 100) },
      ngo_month := "NGO1:2025-01" },
    { report := { ngo_id := "NGO2", month := "2025-01", people_helped := JSVal.num (Num.fin 5),
                  events_conducted := JSVal.num (Num.fin 2), funds_utilized := JSVal.num (Num.fin 50) },
      ngo_month := "NGO2:2025-01" },
    { report := { ngo_id := "NGO1", month := "2025-02", people_helped := JSVal.num (Num.fin 7),
                  events_conducted := JSVal.num (Num.fin 1), funds_utilized := JSVal.num (Num.fin 70) },
      ngo_month := "NGO1:2025-02" },
    { report := { ngo_id := "NGO1", month := "2025-01", people_helped := JSVal.num (Num.fin 3),
                  events_conducted := JSVal.num (Num.fin 4), funds_utilized := JSVal.num (Num.fin 30) },
      ngo_month := "NGO1 :2025-01" } ]

/-- The request body that carries the five values of a normalized row. -/
def bodyOf (n : NormRow) : ReportBody :=
  { ngoId := n.ngoId, month := n.monthRaw, peopleHelped := n.peopleHelped,
    eventsConducted := n.eventsConducted, fundsUtilized := n.fundsUtilized }

/-- A submission whose organization id is two spaces. -/
def blankIdRow : NormRow :=
  { ngoId := some "  ", monthRaw := some "2025-01", peopleHelped := JSVal.undef,
    eventsConducted := JSVal.undef, fundsUtilized := JSVal.undef }

/-- The messages of `validateRow`, in the order of its checks. -/
def validationMessages : List String :=
  ["Missing NGO ID", "Missing month", "Month must be YYYY-MM",
   "people_helped must be a non-negative number",
   "events_conducted must be a non-negative number",
   "funds_utilized must be a non-negative number"]

/-- The text `validateRow` tests against the month pattern: `month || ''`. -/
def monthTested (n : NormRow) : String := (textOr (n.monthRaw.map jsTrim) (some "")).getD ""

/-- A submission whose month has a leading space. -/
def paddedMonthRow : NormRow :=
  { ngoId := some "NGO1", monthRaw := some " 2025-01", peopleHelped := JSVal.str "10",
    eventsConducted := JSVal.undef, fundsUtilized := JSVal.undef }

/-- A run on `sampleRows` in which no ledger write fails and `upsertReport` throws
for the first row. -/
def envStoreFailure : Env := { sampleEnv with upsertOk := fun i => decide (i ≠ 0) }

/-- The job's document after the writes `ws`, when it was `j` before them. -/
def jobFrom (j : Job) (ws : List LedgerWrite) : Option Job := ws.foldl LedgerWrite.apply (some j)

/-- The job's document as `enqueueJob` leaves it on a batch of three rows. -/
def jobStarted : Job :=
  { status := Status.processing, file_name := "reports.csv", total_rows := 3,
    processed_rows := 0, success_count := 0, failure_count := 0, error_messages := [] }

/-- A row with an empty organization id, no month, a non-numeric people count, no
events count and a funds count of 5. -/
def brokenRow : NormRow :=
  { ngoId := some "", monthRaw := none, peopleHelped := JSVal.str "many",
    eventsConducted := JSVal.undef, fundsUtilized := JSVal.str "5" }

/-- A collection, written by hand, whose two reports for `2025-01` hold 10 people
helped and the text `abc` in `people_helped`; the second report has no
`events_conducted` and `null` in `funds_utilized`. -/
def dbWithText : ReportsDb :=
  [ { report := { ngo_id := "NGO1", month := "2025-01", people_helped := JSVal.num (Num.fin 10),
                  events_conducted := JSVal.num (Num.fin 2), funds_utilized := JSVal.num (Num.fin 50) },
      ngo_month := "NGO1:2025-01" },
    { report := { ngo_id := "NGO2", month := "2025-01", people_helped := JSVal.str "abc",
                  events_conducted := JSVal.undef, funds_utilized := JSVal.null },
      ngo_month := "NGO2:2025-01" } ]

/-- The values of one field that `getDashboard` adds up for a month. -/
def addends (toNumber : String → Num) (field : Report → JSVal) (db : ReportsDb)
    (month : String) : List Num :=
  (findByMonth db month).map (fun r => numberOrZero toNumber (field r))

/-- The sum of a list of numbers as JavaScript computes it: from 0, adding the
numbers with `+` from left to right. -/
def jsSum (plus : Rat → Rat → Num) (xs : List Num) : Num := xs.foldl (Num.add plus) Num.zero

/-- Whether a stored value is a number other than `NaN`. -/
def JSVal.isNumber : JSVal → Bool
  | .num n => !n.isNaN
  | _ => false

/-- The number a stored value counts for in a total when it is a number other than
`NaN`, that number itself, and `0` for every other value. -/
def JSVal.numValue : JSVal → Num
  | .num n => if n.isNaN then Num.zero else n
  | _ => Num.zero

/-- Whether `+` is exact on every step of adding the finite values `qs` to `a` from
left to right: no step rounds or overflows. -/
def exactFrom (plus : Rat → Rat → Num) : Rat → List Rat → Bool
  | _, [] => true
  | a, q :: qs => decide (plus a q = Num.fin (a + q)) && exactFrom plus (a + q) qs

/-- Exact addition of finite values. The addition of doubles agrees with it on the
integers of the samples, whose sums stay far below 2^53. -/
def exactPlus (a b : Rat) : Num := Num.fin (a + b)

/-- A later report for the pair of `reportColonId`, with other quantities. -/
def reportColonIdLater : Report :=
  { ngo_id := "N:1", month := "2025-01", people_helped := JSVal.num (Num.fin 25),
    events_conducted := JSVal.num (Num.fin 4), funds_utilized := JSVal.num (Num.fin 0) }

/-- A report for the same month as `reportColonId` whose organization id is a prefix
of the other id up to its colon. -/
def reportPlainId : Report :=
  { ngo_id := "N", month := "2025-01", people_helped := JSVal.num (Num.fin 3),
    events_conducted := JSVal.num (Num.fin 0), funds_utilized := JSVal.num (Num.fin 30) }

/-! ## Lemmas on the row loop -/

theorem rowStep_processedRows (toNumber : String → Num) (env : Env) (row : Row) (st : LoopState) :
    (rowStep toNumber env row st).processedRows = st.processedRows + 1 := by
  unfold rowStep
  dsimp only
  split_ifs <;> rfl

theorem rowStep_writes (toNumber : String → Num) (env : Env) (row : Row) (st : LoopState) :
    (rowStep toNumber env row st).writes = st.writes := by
  unfold rowStep
  dsimp only
  split_ifs <;> rfl

theorem rowStep_counts (toNumber : String → Num) (env : Env) (row : Row) (st : LoopState) :
    (rowStep toNumber env row st).successCount + (rowStep toNumber env row st).failureCount
      = st.successCount + st.failureCount + 1 := by
  unfold rowStep
  dsimp only
  split_ifs <;> simp only [] <;> omega

theorem progressWrites_append (xs ys : List LedgerWrite) :
    progressWrites (xs ++ ys) = progressWrites xs ++ progressWrites ys := by
  simp [progressWrites, List.filterMap_append]

theorem statusWrites_append (xs ys : List LedgerWrite) :
    statusWrites (xs ++ ys) = statusWrites xs ++ statusWrites ys := by
  simp [statusWrites, List.filterMap_append]

/-- The progress updates the row loop adds to the ledger are numbered from the
value of `processedRows` at its start, each splits into successes and failures,
and none passes the number of rows. -/
theorem rowLoop_progress (toNumber : String → Num) (env : Env) (rows : List Row) :
    ∀ st : LoopState, st.processedRows = st.successCount + st.failureCount →
      ∃ ps : List Progress,
        progressWrites (rowLoop toNumber env rows st).1.writes = progressWrites st.writes ++ ps ∧
        ∀ i p, ps[i]? = some p →
          p.processed_rows = st.processedRows + i + 1 ∧
          p.processed_rows = p.success_count + p.failure_count ∧
          p.processed_rows ≤ st.processedRows + rows.length := by
  induction rows with
  | nil =>
      intro st _
      exact ⟨[], by simp [rowLoop], by simp⟩
  | cons row rest ih =>
      intro st hst
      have h1 := rowStep_processedRows toNumber env row st
      have h2 := rowStep_writes toNumber env row st
      have h3 := rowStep_counts toNumber env row st
      unfold rowLoop
      dsimp only
      cases hu : env.updateJobProgress st.processedRows with
      | some m =>
          exact ⟨[], by simp [h2], by simp⟩
      | none =>
          dsimp only
          obtain ⟨ps, hps, hall⟩ := ih
            { rowStep toNumber env row st with
              writes := (rowStep toNumber env row st).writes ++
                [LedgerWrite.updateJobProgress (rowStep toNumber env row st).progress] }
            (by dsimp only; omega)
          refine ⟨(rowStep toNumber env row st).progress :: ps, ?_, ?_⟩
          · rw [hps]
            simp [progressWrites_append, h2, progressWrites, LedgerWrite.progress]
          · intro i p hp
            cases i with
            | zero =>
                simp only [List.getElem?_cons_zero, Option.some.injEq] at hp
                subst hp
                simp only [LoopState.progress, List.length_cons]
                omega
            | succ k =>
                simp only [List.getElem?_cons_succ] at hp
                have := hall k p hp
                simp only [List.length_cons] at this ⊢
                omega

/-! ## C1 -/

/-- C1: in `processJob`, whatever the rows, the validation results, the store
outcomes and the ledger outcomes, the progress update number `i` (from 0) written with
`updateJobProgress` has `processed_rows = success_count + failure_count`, has
`processed_rows = i + 1`, so the next update, if any, has exactly one more, and has
`processed_rows` at most the number of parsed rows. -/
theorem processJob_progress_updates (toNumber : String → Num) (env : Env)
    (reports : ReportsDb) (rows : List Row) (hrows : env.parseFile = .ok rows)
    (i : Nat) (p : Progress)
    (hp : (progressWrites (processJob toNumber env reports).2)[i]? = some p) :
    p.processed_rows = p.success_count + p.failure_count ∧
    p.processed_rows = i + 1 ∧
    (∀ q, (progressWrites (processJob toNumber env reports).2)[i + 1]? = some q →
      q.processed_rows = p.processed_rows + 1) ∧
    p.processed_rows ≤ rows.length := by
  obtain ⟨ps, hps, hall⟩ := rowLoop_progress toNumber env rows (loopStart reports) rfl
  have hpw : progressWrites (processJob toNumber env reports).2 = ps := by
    unfold processJob
    rw [hrows]
    dsimp only
    rcases hloop : rowLoop toNumber env rows (loopStart reports) with ⟨st, thrown⟩
    rw [hloop] at hps
    have hps' : progressWrites st.writes = ps := by simpa [loopStart, progressWrites] using hps
    cases thrown with
    | some m =>
        dsimp only
        rw [progressWrites_append, hps']
        unfold failWrites
        split_ifs <;> simp [progressWrites, LedgerWrite.progress]
    | none =>
        dsimp only
        cases env.completeJob with
        | some m =>
            dsimp only
            rw [progressWrites_append, hps']
            unfold failWrites
            split_ifs <;> simp [progressWrites, LedgerWrite.progress]
        | none =>
            dsimp only
            rw [progressWrites_append, hps']
            simp [progressWrites, LedgerWrite.progress]
  rw [hpw] at hp ⊢
  have h := hall i p hp
  simp only [loopStart, Nat.zero_add] at h
  refine ⟨h.2.1, h.1, ?_, h.2.2⟩
  intro q hq
  have h' := hall (i + 1) q hq
  simp only [loopStart, Nat.zero_add] at h'
  omega

theorem processJob_progress_updates_witness :
    sampleEnv.parseFile = .ok sampleRows ∧
    (progressWrites (processJob decimalNumber sampleEnv []).2)[1]? =
      some { processed_rows := 2, success_count := 1, failure_count := 1,
             error_messages := [ErrorEntry.row 2 ["Missing NGO ID"]] } ∧
    (2 = 1 + 1 ∧ 2 = 1 + 1 ∧
      (∀ q, (progressWrites (processJob decimalNumber sampleEnv []).2)[1 + 1]? = some q →
        q.processed_rows = 2 + 1) ∧
      2 ≤ sampleRows.length) :=
  ⟨rfl, by decide,
    processJob_progress_updates decimalNumber sampleEnv [] sampleRows rfl 1
      { processed_rows := 2, success_count := 1, failure_count := 1,
        error_messages := [ErrorEntry.row 2 ["Missing NGO ID"]] } (by decide)⟩

/-! ## C2 -/

theorem rowStep_errors (toNumber : String → Num) (env : Env) (row : Row) (st : LoopState) :
    (rowStep toNumber env row st).errors
        = st.errors ++ (specRowEntry toNumber env st.processedRows row).toList ∧
    (rowStep toNumber env row st).failureCount
        = st.failureCount + (specRowEntry toNumber env st.processedRows row).toList.length := by
  unfold rowStep specRowEntry
  dsimp only
  cases hv : (validateRow toNumber (normalizeRow row)).isValid <;>
    cases hu : env.upsertOk st.processedRows <;> simp

theorem rowLoop_errors (toNumber : String → Num) (env : Env) (rows : List Row) :
    ∀ st : LoopState, (rowLoop toNumber env rows st).2 = none →
      (rowLoop toNumber env rows st).1.errors
          = st.errors ++ specErrors toNumber env st.processedRows rows ∧
      (rowLoop toNumber env rows st).1.failureCount
          = st.failureCount + (specErrors toNumber env st.processedRows rows).length := by
  induction rows with
  | nil =>
      intro st _
      simp [rowLoop, specErrors]
  | cons row rest ih =>
      intro st hdone
      have h1 := rowStep_processedRows toNumber env row st
      have h4 := rowStep_errors toNumber env row st
      unfold rowLoop at hdone ⊢
      dsimp only at hdone ⊢
      cases hu : env.updateJobProgress st.processedRows with
      | some m => rw [hu] at hdone; simp at hdone
      | none =>
          rw [hu] at hdone
          dsimp only at hdone ⊢
          have h := ih _ hdone
          dsimp only at h
          rw [h.1, h.2, h4.1, h4.2, h1]
          have hspec : specErrors toNumber env st.processedRows (row :: rest)
              = (specRowEntry toNumber env st.processedRows row).toList
                  ++ specErrors toNumber env (st.processedRows + 1) rest := by
            unfold specErrors
            rw [List.enumFrom_cons, List.filterMap_cons]
            cases specRowEntry toNumber env st.processedRows row <;> simp
          rw [hspec]
          simp only [List.append_assoc, List.length_append]
          exact ⟨trivial, by omega⟩

/-- C2: when the row loop of `processJob` runs to its end, its `errors` list is the
list of the entries of the failed rows in source order: a row that fails validation
contributes its validation messages, a valid row whose write fails contributes
`DB error`, a stored row contributes nothing, and each entry carries the 1-based
position of its row in the parsed sequence; the number of entries is `failureCount`. -/
theorem rowLoop_errors_spec (toNumber : String → Num) (env : Env) (reports : ReportsDb)
    (rows : List Row)
    (hdone : (rowLoop toNumber env rows (loopStart reports)).2 = none) :
    (rowLoop toNumber env rows (loopStart reports)).1.errors = specErrors toNumber env 0 rows ∧
    (rowLoop toNumber env rows (loopStart reports)).1.errors.length
      = (rowLoop toNumber env rows (loopStart reports)).1.failureCount := by
  have h := rowLoop_errors toNumber env rows (loopStart reports) hdone
  simp only [loopStart, List.nil_append, Nat.zero_add] at h
  simp only [loopStart]
  rw [h.1, h.2]
  exact ⟨rfl, rfl⟩

theorem rowLoop_errors_spec_witness :
    (rowLoop decimalNumber sampleEnv sampleRows (loopStart [])).2 = none ∧
    ((rowLoop decimalNumber sampleEnv sampleRows (loopStart [])).1.errors
        = specErrors decimalNumber sampleEnv 0 sampleRows ∧
      (rowLoop decimalNumber sampleEnv sampleRows (loopStart [])).1.errors.length
        = (rowLoop decimalNumber sampleEnv sampleRows (loopStart [])).1.failureCount) :=
  ⟨by decide, rowLoop_errors_spec decimalNumber sampleEnv [] sampleRows (by decide)⟩

/-! ## C3 -/

theorem rowLoop_status (toNumber : String → Num) (env : Env) (rows : List Row) :
    ∀ st : LoopState,
      statusWrites (rowLoop toNumber env rows st).1.writes = statusWrites st.writes := by
  induction rows with
  | nil => intro st; rfl
  | cons row rest ih =>
      intro st
      unfold rowLoop
      dsimp only
      cases env.updateJobProgress st.processedRows with
      | some m => simp only [rowStep_writes]
      | none =>
          dsimp only
          rw [ih]
          simp [statusWrites_append, rowStep_writes, statusWrites, LedgerWrite.status]

theorem failWrites_status (env : Env) (m dflt : String) :
    statusWrites (failWrites env m dflt) = [] ∨
    statusWrites (failWrites env m dflt) = [Status.failed] := by
  unfold failWrites
  split_ifs <;> simp [statusWrites, LedgerWrite.status]

theorem processJob_status (toNumber : String → Num) (env : Env) (reports : ReportsDb) :
    statusWrites (processJob toNumber env reports).2 = [] ∨
    statusWrites (processJob toNumber env reports).2 = [Status.completed] ∨
    statusWrites (processJob toNumber env reports).2 = [Status.failed] := by
  unfold processJob
  cases env.parseFile with
  | error m =>
      dsimp only
      rcases failWrites_status env m "Processing failed" with h | h <;> simp [h]
  | ok rows =>
      dsimp only
      have hl := rowLoop_status toNumber env rows (loopStart reports)
      rcases hloop : rowLoop toNumber env rows (loopStart reports) with ⟨st, thrown⟩
      rw [hloop] at hl
      have hst : statusWrites st.writes = [] := by simpa [loopStart, statusWrites] using hl
      cases thrown with
      | some m =>
          dsimp only
          rw [statusWrites_append, hst]
          rcases failWrites_status env m "Processing failed" with h | h <;> simp [h]
      | none =>
          dsimp only
          cases env.completeJob with
          | some m =>
              dsimp only
              rw [statusWrites_append, hst]
              rcases failWrites_status env m "Processing failed" with h | h <;> simp [h]
          | none =>
              dsimp only
              rw [statusWrites_append, hst]
              simp [statusWrites, LedgerWrite.status]

theorem startJob_status (env : Env) :
    ((startJob env).2 = none ∧ statusWrites (startJob env).1 = [Status.processing]) ∨
    ((startJob env).2 ≠ none ∧ statusWrites (startJob env).1 = []) := by
  unfold startJob
  repeat' split
  all_goals simp [statusWrites, LedgerWrite.status]

/-- C3, as the claim states it, fails: when `fs.stat` throws in the timer callback of
`enqueueJob`, the statuses written are `pending, failed`, which is no prefix of
`pending, processing, completed` nor of `pending, processing, failed`. -/
theorem runJob_status_skips_processing :
    statusWrites (runJob decimalNumber envMissingUpload "reports.csv" []).2
      = [Status.pending, Status.failed] ∧
    ¬ (statusWrites (runJob decimalNumber envMissingUpload "reports.csv" []).2
          <+: [Status.pending, Status.processing, Status.completed] ∨
       statusWrites (runJob decimalNumber envMissingUpload "reports.csv" []).2
          <+: [Status.pending, Status.processing, Status.failed]) := by
  decide

/-- C3, amended: for every run of `enqueueJob` followed by `processJob` and every
pattern of file, parse, store and ledger failures, the statuses written to the job
are a prefix of `pending, processing, completed`, or a prefix of
`pending, processing, failed`, or exactly `pending, failed` (a failure of the start-up
steps): `completed` is never written without `processing` before it, and nothing is
written after `completed` or `failed`. -/
theorem runJob_status_sequence (toNumber : String → Num) (env : Env) (fileName : String)
    (reports : ReportsDb) :
    statusWrites (runJob toNumber env fileName reports).2
        <+: [Status.pending, Status.processing, Status.completed] ∨
    statusWrites (runJob toNumber env fileName reports).2
        <+: [Status.pending, Status.processing, Status.failed] ∨
    statusWrites (runJob toNumber env fileName reports).2 = [Status.pending, Status.failed] := by
  unfold runJob
  cases env.insertJob with
  | some m => left; simp [statusWrites]
  | none =>
      dsimp only
      have hstart := startJob_status env
      rcases hs : startJob env with ⟨ws, thrown⟩
      rw [hs] at hstart
      cases thrown with
      | some m =>
          dsimp only
          have hws : statusWrites ws = [] := by
            rcases hstart with h | h
            · simp at h
            · exact h.2
          rw [statusWrites_append, statusWrites_append, hws]
          rcases failWrites_status env m "Failed to start job" with h | h
          · left
            rw [h]
            simp [statusWrites, LedgerWrite.status, initialJob]
          · right; right
            rw [h]
            simp [statusWrites, LedgerWrite.status, initialJob]
      | none =>
          dsimp only
          have hws : statusWrites ws = [Status.processing] := by
            rcases hstart with h | h
            · exact h.2
            · simp at h
          rw [statusWrites_append, statusWrites_append, hws]
          have h0 : statusWrites [LedgerWrite.insertJob (initialJob fileName)]
              = [Status.pending] := by
            simp [statusWrites, LedgerWrite.status, initialJob]
          rw [h0]
          rcases processJob_status toNumber env reports with h | h | h
          · left
            rw [h]
            exact ⟨[Status.completed], rfl⟩
          · left
            rw [h]
            exact ⟨[], rfl⟩
          · right; left
            rw [h]
            exact ⟨[], rfl⟩

/-! ## C4 -/

/-- C4, as the claim states it, fails: `failJob` on a job whose errors hold the entry
of a failed row leaves only the message, and in a run whose third progress update
throws, the entry recorded by the second update is gone from the final job. -/
theorem failJob_drops_row_errors :
    ErrorEntry.row 2 ["Missing NGO ID"] ∈ jobWithRowError.error_messages ∧
    ErrorEntry.row 2 ["Missing NGO ID"] ∉
      (failJob jobWithRowError "ledger unavailable").error_messages ∧
    (progressWrites (runJob decimalNumber envLedgerFailure "reports.csv" []).2)[2]? =
      some { processed_rows := 2, success_count := 1, failure_count := 1,
             error_messages := [ErrorEntry.row 2 ["Missing NGO ID"]] } ∧
    (jobAfter (runJob decimalNumber envLedgerFailure "reports.csv" []).2).map Job.error_messages
      = some [ErrorEntry.message "ledger unavailable"] := by
  decide

/-- C4, amended: `failJob(jobId, message)` sets the status to `failed` and replaces
the job's errors by the single job-level message, so entries recorded before the call
are not kept; the counters and the file name are unchanged. -/
theorem failJob_replaces_errors (j : Job) (message : String) :
    (failJob j message).error_messages = [ErrorEntry.message message] ∧
    (failJob j message).status = Status.failed ∧
    (failJob j message).file_name = j.file_name ∧
    (failJob j message).total_rows = j.total_rows ∧
    (failJob j message).processed_rows = j.processed_rows ∧
    (failJob j message).success_count = j.success_count ∧
    (failJob j message).failure_count = j.failure_count :=
  ⟨rfl, rfl, rfl, rfl, rfl, rfl, rfl⟩

/-! ## C5 -/

theorem replaceFirst_none (key : String) (d : ReportDoc) :
    ∀ db : ReportsDb, replaceFirst key d db = none → key ∉ keysOf db := by
  intro db
  induction db with
  | nil => intro _; simp [keysOf]
  | cons x xs ih =>
      intro h
      unfold replaceFirst at h
      by_cases hx : x.ngo_month = key
      · simp [hx] at h
      · simp only [hx, if_false, Option.map_eq_none'] at h
        have := ih h
        simp only [keysOf, List.map_cons, List.mem_cons, not_or] at this ⊢
        exact ⟨fun e => hx e.symm, this⟩

theorem replaceFirst_some (key : String) (d : ReportDoc) (hd : d.ngo_month = key) :
    ∀ (db db' : ReportsDb), (keysOf db).Nodup → replaceFirst key d db = some db' →
      keysOf db' = keysOf db ∧
      ∀ x, x ∈ db' ↔ x = d ∨ (x ∈ db ∧ x.ngo_month ≠ key) := by
  intro db
  induction db with
  | nil => intro db' _ h; simp [replaceFirst] at h
  | cons x xs ih =>
      intro db' hnd h
      unfold replaceFirst at h
      have hnd' : x.ngo_month ∉ keysOf xs ∧ (keysOf xs).Nodup := by
        simpa [keysOf] using hnd
      by_cases hx : x.ngo_month = key
      · simp only [hx, if_true, Option.some.injEq] at h
        subst h
        refine ⟨by simp [keysOf, hd, hx], ?_⟩
        intro y
        constructor
        · intro hy
          rcases List.mem_cons.1 hy with hy | hy
          · exact Or.inl hy
          · right
            refine ⟨List.mem_cons_of_mem _ hy, ?_⟩
            intro e
            apply hnd'.1
            rw [hx, ← e]
            exact List.mem_map_of_mem _ hy
        · rintro (hy | ⟨hy, hne⟩)
          · exact List.mem_cons.2 (Or.inl hy)
          · rcases List.mem_cons.1 hy with hy | hy
            · subst hy; exact absurd hx hne
            · exact List.mem_cons_of_mem _ hy
      · simp only [hx, if_false] at h
        cases hr : replaceFirst key d xs with
        | none => rw [hr] at h; simp at h
        | some ys =>
            rw [hr] at h
            simp only [Option.map_some', Option.some.injEq] at h
            subst h
            obtain ⟨hk, hm⟩ := ih ys hnd'.2 hr
            refine ⟨by simp only [keysOf, List.map_cons] at hk ⊢; rw [hk], ?_⟩
            intro y
            simp only [List.mem_cons, hm]
            constructor
            · rintro (hy | hy | ⟨hy, hne⟩)
              · subst hy; exact Or.inr ⟨Or.inl rfl, hx⟩
              · exact Or.inl hy
              · exact Or.inr ⟨Or.inr hy, hne⟩
            · rintro (hy | ⟨hy | hy, hne⟩)
              · exact Or.inr (Or.inl hy)
              · exact Or.inl hy
              · exact Or.inr (Or.inr ⟨hy, hne⟩)

/-- Membership in the collection after one `upsertReport`. -/
theorem upsertReport_mem (db : ReportsDb) (r : Report) (hnd : (keysOf db).Nodup) (x : ReportDoc) :
    x ∈ upsertReport db r ↔ x = docOf r ∨ (x ∈ db ∧ x.ngo_month ≠ ngoMonthKey r) := by
  unfold upsertReport
  dsimp only
  cases hr : replaceFirst (ngoMonthKey r) { report := r, ngo_month := ngoMonthKey r } db with
  | none =>
      dsimp only
      have hk := replaceFirst_none _ _ db hr
      simp only [List.mem_append, List.mem_singleton, docOf]
      constructor
      · rintro (hx | hx)
        · right
          refine ⟨hx, fun e => hk ?_⟩
          rw [← e]
          exact List.mem_map_of_mem _ hx
        · exact Or.inl hx
      · rintro (hx | ⟨hx, _⟩)
        · exact Or.inr hx
        · exact Or.inl hx
  | some db' =>
      dsimp only
      exact (replaceFirst_some (ngoMonthKey r) { report := r, ngo_month := ngoMonthKey r }
        rfl db db' hnd hr).2 x

/-- One `upsertReport` keeps the `ngo_month` values pairwise distinct. -/
theorem upsertReport_nodup (db : ReportsDb) (r : Report) (hnd : (keysOf db).Nodup) :
    (keysOf (upsertReport db r)).Nodup := by
  unfold upsertReport
  dsimp only
  cases hr : replaceFirst (ngoMonthKey r) { report := r, ngo_month := ngoMonthKey r } db with
  | none =>
      dsimp only
      have hk := replaceFirst_none _ _ db hr
      simp only [keysOf, List.map_append, List.map_cons, List.map_nil] at hk ⊢
      rw [List.nodup_append]
      refine ⟨hnd, List.nodup_singleton _, ?_⟩
      intro a ha hb
      rw [List.mem_singleton] at hb
      subst hb
      exact hk ha
  | some db' =>
      dsimp only
      rw [(replaceFirst_some (ngoMonthKey r) { report := r, ngo_month := ngoMonthKey r }
        rfl db db' hnd hr).1]
      exact hnd

theorem find?_refine {α : Type} (p q : α → Bool) (x : α) (hq : q x = true)
    (hqp : ∀ y, q y = true → p y = true) :
    ∀ l : List α, l.find? p = some x → l.find? q = some x := by
  intro l
  induction l with
  | nil => intro h; simp at h
  | cons a as ih =>
      intro h
      rw [List.find?_cons] at h ⊢
      cases hpa : p a with
      | true =>
          rw [hpa] at h
          simp only [Option.some.injEq] at h
          subst h
          rw [hq]
      | false =>
          rw [hpa] at h
          have hqa : q a = false := by
            cases hqa : q a with
            | true => rw [hqp a hqa] at hpa; exact absurd hpa (by simp)
            | false => rfl
          rw [hqa]
          exact ih h

/-- The invariant of the collection built by a sequence of calls: the `ngo_month`
values are pairwise distinct, each is the key of its report, and each report is the
one of the most recent call with its key. -/
theorem upsertAll_invariant (calls : List Report) :
    (keysOf (upsertAll calls)).Nodup ∧
    ∀ d ∈ upsertAll calls,
      d.ngo_month = ngoMonthKey d.report ∧
      lastCall (fun r => decide (ngoMonthKey r = d.ngo_month)) calls = some d.report := by
  induction calls using List.reverseRecOn with
  | nil => simp [upsertAll, keysOf]
  | append_singleton calls r ih =>
      obtain ⟨hnd, hall⟩ := ih
      have hfold : upsertAll (calls ++ [r]) = upsertReport (upsertAll calls) r := by
        simp [upsertAll, List.foldl_append]
      rw [hfold]
      refine ⟨upsertReport_nodup _ r hnd, ?_⟩
      intro d hd
      rcases (upsertReport_mem _ r hnd d).1 hd with hd | ⟨hd, hne⟩
      · subst hd
        simp [docOf, lastCall]
      · obtain ⟨hk, hl⟩ := hall d hd
        refine ⟨hk, ?_⟩
        simp only [lastCall, List.reverse_append, List.reverse_cons, List.reverse_nil,
          List.nil_append, List.singleton_append, List.find?_cons] at hl ⊢
        have : decide (ngoMonthKey r = d.ngo_month) = false := by
          simp only [decide_eq_false_iff_not]
          exact fun e => hne e.symm
        rw [this]
        exact hl

/-- A text of the month shape has seven characters. -/
theorem monthPattern_length (s : String) (h : monthPattern s = true) : s.data.length = 7 := by
  unfold monthPattern at h
  generalize s.data = cs at h
  unfold monthPatternChars at h
  split at h
  · rfl
  · simp at h

/-- Reports whose months have the validated shape and whose keys are equal are for
the same pair. -/
theorem ngoMonthKey_inj (r1 r2 : Report) (h1 : monthPattern r1.month = true)
    (h2 : monthPattern r2.month = true) (hk : ngoMonthKey r1 = ngoMonthKey r2) :
    r1.ngo_id = r2.ngo_id ∧ r1.month = r2.month := by
  have hd : r1.ngo_id.data ++ [':'] ++ r1.month.data
      = r2.ngo_id.data ++ [':'] ++ r2.month.data := by
    have := congrArg String.data hk
    simpa [ngoMonthKey, String.data_append] using this
  have hlen : r1.month.data.length = r2.month.data.length := by
    rw [monthPattern_length _ h1, monthPattern_length _ h2]
  obtain ⟨hpre, hmonth⟩ := List.append_inj' hd hlen
  exact ⟨String.ext (List.append_cancel_right hpre), String.ext hmonth⟩

/-- The month shape cannot be dropped: `upsertReport` called directly with
the month `1:2025-01`, which neither `processJob` nor `POST /report` lets through,
replaces the report held for the other pair (`N:1`, `2025-01`), since both have the
`ngo_month` value `N:1:2025-01`. -/
theorem upsertReport_changes_other_pair :
    samePair reportColonId reportColonMonth = false ∧
    monthPattern reportColonMonth.month = false ∧
    docOf reportColonId ∈ upsertAll [reportColonId] ∧
    docOf reportColonId ∉ upsertReport (upsertAll [reportColonId]) reportColonMonth ∧
    upsertReport (upsertAll [reportColonId]) reportColonMonth = [docOf reportColonMonth] := by
  decide

/-- C5: for every sequence of `upsertReport` calls whose months have passed the month
check, as the months of all calls of `processJob` and `POST /report` have, on an empty
collection with unique `ngo_month`, the collection holds at most one report per
(`ngo_id`, `month`) pair, and a report it holds is, field for field, the report of the
most recent call for its pair (full replacement, no accumulation); one more such call
stores its report and leaves the reports for all other pairs as they were. -/
theorem upsertReport_last_write_wins (calls : List Report) (r : Report)
    (hcalls : ∀ c ∈ calls, monthPattern c.month = true) (hr : monthPattern r.month = true) :
    ((upsertAll calls).map (fun d => (d.report.ngo_id, d.report.month))).Nodup ∧
    (∀ d ∈ upsertAll calls, lastCall (samePair d.report) calls = some d.report) ∧
    docOf r ∈ upsertReport (upsertAll calls) r ∧
    (∀ d : ReportDoc, samePair d.report r = false →
      (d ∈ upsertReport (upsertAll calls) r ↔ d ∈ upsertAll calls)) := by
  obtain ⟨hnd, hall⟩ := upsertAll_invariant calls
  refine ⟨?_, ?_, ?_, ?_⟩
  · have hk : keysOf (upsertAll calls)
        = ((upsertAll calls).map (fun d => (d.report.ngo_id, d.report.month))).map
            (fun pr => pr.1 ++ ":" ++ pr.2) := by
      simp only [keysOf, List.map_map]
      apply List.map_congr_left
      intro d hd
      rw [(hall d hd).1]
      rfl
    rw [hk] at hnd
    exact List.Nodup.of_map _ hnd
  · intro d hd
    obtain ⟨hk, hl⟩ := hall d hd
    unfold lastCall at hl ⊢
    refine find?_refine _ (samePair d.report) d.report ?_ ?_ _ hl
    · simp [samePair]
    · intro y hy
      simp only [samePair, decide_eq_true_eq] at hy
      simp only [decide_eq_true_eq, hk, ngoMonthKey, hy.1, hy.2]
  · exact (upsertReport_mem _ r hnd _).2 (Or.inl rfl)
  · intro d hpair
    simp only [samePair, decide_eq_false_iff_not] at hpair
    rw [upsertReport_mem _ r hnd d]
    constructor
    · rintro (h | ⟨h, _⟩)
      · subst h
        exact absurd ⟨rfl, rfl⟩ hpair
      · exact h
    · intro h
      refine Or.inr ⟨h, ?_⟩
      intro hk
      obtain ⟨hkey, hlast⟩ := hall d h
      have hmem : d.report ∈ calls := by
        unfold lastCall at hlast
        have := List.mem_of_find?_eq_some hlast
        simpa using this
      rw [hkey] at hk
      exact hpair (ngoMonthKey_inj d.report r (hcalls _ hmem) hr hk)

theorem upsertReport_last_write_wins_witness :
    ((∀ c ∈ [reportColonId, reportPlainId], monthPattern c.month = true) ∧
      monthPattern reportColonIdLater.month = true) ∧
    upsertReport (upsertAll [reportColonId, reportPlainId]) reportColonIdLater
      = [docOf reportColonIdLater, docOf reportPlainId] ∧
    (samePair (docOf reportPlainId).report reportColonIdLater = false ∧
      (docOf reportPlainId ∈ upsertReport (upsertAll [reportColonId, reportPlainId])
            reportColonIdLater ↔
        docOf reportPlainId ∈ upsertAll [reportColonId, reportPlainId])) :=
  ⟨⟨by decide, by decide⟩, by decide, by decide,
    (upsertReport_last_write_wins [reportColonId, reportPlainId] reportColonIdLater
      (by decide) (by decide)).2.2.2 (docOf reportPlainId) (by decide)⟩

/-! ## Lemmas on the dashboard -/

theorem numberOrZero_finite (toNumber : String → Num) (v : JSVal) (hv : v.isFinite = true) :
    numberOrZero toNumber v = Num.fin v.finValue := by
  cases v with
  | num n =>
      cases n with
      | fin q =>
          by_cases hq : q = 0
          · subst hq
            simp [numberOrZero, JSVal.or, JSVal.truthy, Num.truthy, JSVal.toNum, Num.zero,
              JSVal.finValue]
          · simp [numberOrZero, JSVal.or, JSVal.truthy, Num.truthy, JSVal.toNum, hq,
              JSVal.finValue]
      | _ => simp [JSVal.isFinite] at hv
  | _ => simp [JSVal.isFinite] at hv

theorem setAdd_fold (xs : List String) :
    ∀ s : List String, s.Nodup →
      (xs.foldl setAdd s).Nodup ∧ (xs.foldl setAdd s).toFinset = s.toFinset ∪ xs.toFinset := by
  induction xs with
  | nil => intro s hs; simp [hs]
  | cons x xs ih =>
      intro s hs
      have hs' : (setAdd s x).Nodup := by
        unfold setAdd
        split_ifs with hx
        · exact hs
        · rw [List.nodup_append]
          refine ⟨hs, List.nodup_singleton _, ?_⟩
          intro a ha hb
          rw [List.mem_singleton] at hb
          subst hb
          exact hx ha
      have hset : (setAdd s x).toFinset = s.toFinset ∪ {x} := by
        unfold setAdd
        split_ifs with hx
        · ext a
          simp only [List.mem_toFinset, Finset.mem_union, Finset.mem_singleton]
          constructor
          · exact Or.inl
          · rintro (h | h)
            · exact h
            · subst h; exact hx
        · ext a
          simp [List.mem_toFinset]
      obtain ⟨h1, h2⟩ := ih (setAdd s x) hs'
      refine ⟨h1, ?_⟩
      rw [List.foldl_cons, h2, hset]
      ext a
      simp only [Finset.mem_union, Finset.mem_singleton, List.mem_toFinset, List.mem_cons]
      tauto

theorem aggregate_fold_ngos (toNumber : String → Num) (plus : Rat → Rat → Num)
    (rs : List Report) :
    ∀ acc : Aggregate,
      (rs.foldl (aggregateStep toNumber plus) acc).totalNgos
        = (rs.map Report.ngo_id).foldl setAdd acc.totalNgos := by
  induction rs with
  | nil => intro acc; rfl
  | cons r rs ih => intro acc; simp only [List.foldl_cons, List.map_cons, ih]; rfl

theorem aggregate_fold_people (toNumber : String → Num) (plus : Rat → Rat → Num)
    (rs : List Report) :
    ∀ acc : Aggregate,
      (rs.foldl (aggregateStep toNumber plus) acc).totalPeopleHelped
        = (rs.map (fun r => numberOrZero toNumber r.people_helped)).foldl (Num.add plus)
            acc.totalPeopleHelped := by
  induction rs with
  | nil => intro acc; rfl
  | cons r rs ih => intro acc; simp only [List.foldl_cons, List.map_cons, ih]; rfl

theorem aggregate_fold_events (toNumber : String → Num) (plus : Rat → Rat → Num)
    (rs : List Report) :
    ∀ acc : Aggregate,
      (rs.foldl (aggregateStep toNumber plus) acc).totalEventsConducted
        = (rs.map (fun r => numberOrZero toNumber r.events_conducted)).foldl (Num.add plus)
            acc.totalEventsConducted := by
  induction rs with
  | nil => intro acc; rfl
  | cons r rs ih => intro acc; simp only [List.foldl_cons, List.map_cons, ih]; rfl

theorem aggregate_fold_funds (toNumber : String → Num) (plus : Rat → Rat → Num)
    (rs : List Report) :
    ∀ acc : Aggregate,
      (rs.foldl (aggregateStep toNumber plus) acc).totalFundsUtilized
        = (rs.map (fun r => numberOrZero toNumber r.funds_utilized)).foldl (Num.add plus)
            acc.totalFundsUtilized := by
  induction rs with
  | nil => intro acc; rfl
  | cons r rs ih => intro acc; simp only [List.foldl_cons, List.map_cons, ih]; rfl

theorem getDashboard_people_addends (toNumber : String → Num) (plus : Rat → Rat → Num)
    (db : ReportsDb) (month : String) :
    (getDashboard toNumber plus db month).totalPeopleHelped
      = (addends toNumber Report.people_helped db month).foldl (Num.add plus) Num.zero := by
  unfold getDashboard addends
  dsimp only
  rw [aggregate_fold_people]

theorem getDashboard_events_addends (toNumber : String → Num) (plus : Rat → Rat → Num)
    (db : ReportsDb) (month : String) :
    (getDashboard toNumber plus db month).totalEventsConducted
      = (addends toNumber Report.events_conducted db month).foldl (Num.add plus) Num.zero := by
  unfold getDashboard addends
  dsimp only
  rw [aggregate_fold_events]

theorem getDashboard_funds_addends (toNumber : String → Num) (plus : Rat → Rat → Num)
    (db : ReportsDb) (month : String) :
    (getDashboard toNumber plus db month).totalFundsUtilized
      = (addends toNumber Report.funds_utilized db month).foldl (Num.add plus) Num.zero := by
  unfold getDashboard addends
  dsimp only
  rw [aggregate_fold_funds]

theorem numberOrZero_absent (toNumber : String → Num) (v : JSVal) (h : v.truthy = false) :
    numberOrZero toNumber v = Num.fin 0 := by
  simp [numberOrZero, JSVal.or, h, JSVal.toNum, Num.zero]

theorem finValue_falsy (v : JSVal) (h : v.truthy = false) : v.finValue = 0 := by
  cases v with
  | num n =>
      cases n with
      | fin q => simpa [JSVal.truthy, Num.truthy, JSVal.finValue] using h
      | _ => rfl
  | _ => rfl

/-- A value that is falsy or a finite number is added as its finite value. -/
theorem numberOrZero_missing_or_finite (toNumber : String → Num) (v : JSVal)
    (h : v.truthy = false ∨ v.isFinite = true) :
    numberOrZero toNumber v = Num.fin v.finValue := by
  rcases h with h | h
  · rw [numberOrZero_absent toNumber v h, finValue_falsy v h]
  · exact numberOrZero_finite toNumber v h

/-- A value that is falsy or a number other than `NaN` is added as `numValue` says:
a number as itself, a falsy value as 0. -/
theorem numberOrZero_numValue (toNumber : String → Num) (v : JSVal)
    (h : v.truthy = false ∨ v.isNumber = true) :
    numberOrZero toNumber v = v.numValue := by
  cases v with
  | undef => rfl
  | null => rfl
  | bool b =>
      cases b with
      | false => rfl
      | true => simp [JSVal.truthy, JSVal.isNumber] at h
  | str s =>
      rcases h with h | h
      · rw [numberOrZero_absent toNumber _ h]; rfl
      · simp [JSVal.isNumber] at h
  | num n =>
      cases n with
      | nan => rfl
      | fin q =>
          by_cases hq : q = 0
          · subst hq
            simp [numberOrZero, JSVal.or, JSVal.truthy, Num.truthy, JSVal.toNum, Num.zero,
              JSVal.numValue, Num.isNaN]
          · simp [numberOrZero, JSVal.or, JSVal.truthy, Num.truthy, JSVal.toNum, hq,
              JSVal.numValue, Num.isNaN]
      | posInf => rfl
      | negInf => rfl

/-- Where no step rounds or overflows, the sum JavaScript computes is the exact sum. -/
theorem foldl_add_exact (plus : Rat → Rat → Num) (qs : List Rat) :
    ∀ a : Rat, exactFrom plus a qs = true →
      (qs.map Num.fin).foldl (Num.add plus) (Num.fin a) = Num.fin (a + qs.sum) := by
  induction qs with
  | nil => intro a _; simp
  | cons q qs ih =>
      intro a h
      simp only [exactFrom, Bool.and_eq_true, decide_eq_true_eq] at h
      simp only [List.map_cons, List.foldl_cons, List.sum_cons, Num.add, h.1]
      rw [ih _ h.2, add_assoc]

/-- The total of a field whose values are falsy or numbers other than `NaN`. -/
theorem addends_js (toNumber : String → Num) (plus : Rat → Rat → Num) (field : Report → JSVal)
    (db : ReportsDb) (month : String)
    (h : ∀ r ∈ findByMonth db month, (field r).truthy = false ∨ (field r).isNumber = true) :
    (addends toNumber field db month).foldl (Num.add plus) Num.zero
      = jsSum plus ((findByMonth db month).map (fun r => (field r).numValue)) := by
  have hmap : addends toNumber field db month
      = (findByMonth db month).map (fun r => (field r).numValue) := by
    unfold addends
    apply List.map_congr_left
    intro r hr
    exact numberOrZero_numValue toNumber _ (h r hr)
  rw [hmap]
  rfl

/-- The total of a field whose values are falsy or finite, when no step of the
addition rounds or overflows. -/
theorem addends_exact (toNumber : String → Num) (plus : Rat → Rat → Num)
    (field : Report → JSVal) (db : ReportsDb) (month : String)
    (h : ∀ r ∈ findByMonth db month, (field r).truthy = false ∨ (field r).isFinite = true)
    (hex : exactFrom plus 0 ((findByMonth db month).map (fun r => (field r).finValue)) = true) :
    (addends toNumber field db month).foldl (Num.add plus) Num.zero
      = Num.fin ((findByMonth db month).map (fun r => (field r).finValue)).sum := by
  have hmap : addends toNumber field db month
      = ((findByMonth db month).map (fun r => (field r).finValue)).map Num.fin := by
    unfold addends
    rw [List.map_map]
    apply List.map_congr_left
    intro r hr
    exact numberOrZero_missing_or_finite toNumber _ (h r hr)
  rw [hmap]
  have := foldl_add_exact plus _ 0 hex
  simpa [Num.zero] using this

/-! ## C6 -/

/-- C6: for every collection whose reports of the asked month hold numbers other than
`NaN` in their three fields, and every month, `getDashboard(month)` returns in
`totalNgosReporting` the number of distinct `ngo_id` values among the reports whose
month is the input, and in each total the sum of that field over those reports. The
sum is the one JavaScript computes, from 0 with `+` in the order of the query, for
every behaviour of the addition of doubles; and where the values are finite and no
step of that addition rounds or overflows, it is the exact sum. When no report has
that month, the count and the three totals are 0, whatever the collection holds. -/
theorem getDashboard_totals (toNumber : String → Num) (plus : Rat → Rat → Num)
    (db : ReportsDb) (month : String)
    (hnum : ∀ r ∈ findByMonth db month, r.people_helped.isNumber = true ∧
      r.events_conducted.isNumber = true ∧ r.funds_utilized.isNumber = true) :
    (getDashboard toNumber plus db month).totalNgosReporting
        = ((findByMonth db month).map Report.ngo_id).toFinset.card ∧
    (getDashboard toNumber plus db month).totalPeopleHelped
        = jsSum plus ((findByMonth db month).map (fun r => r.people_helped.numValue)) ∧
    (getDashboard toNumber plus db month).totalEventsConducted
        = jsSum plus ((findByMonth db month).map (fun r => r.events_conducted.numValue)) ∧
    (getDashboard toNumber plus db month).totalFundsUtilized
        = jsSum plus ((findByMonth db month).map (fun r => r.funds_utilized.numValue)) ∧
    ((∀ r ∈ findByMonth db month, r.people_helped.isFinite = true) →
      exactFrom plus 0 ((findByMonth db month).map (fun r => r.people_helped.finValue)) = true →
      (getDashboard toNumber plus db month).totalPeopleHelped
        = Num.fin ((findByMonth db month).map (fun r => r.people_helped.finValue)).sum) ∧
    ((∀ r ∈ findByMonth db month, r.events_conducted.isFinite = true) →
      exactFrom plus 0 ((findByMonth db month).map (fun r => r.events_conducted.finValue)) = true →
      (getDashboard toNumber plus db month).totalEventsConducted
        = Num.fin ((findByMonth db month).map (fun r => r.events_conducted.finValue)).sum) ∧
    ((∀ r ∈ findByMonth db month, r.funds_utilized.isFinite = true) →
      exactFrom plus 0 ((findByMonth db month).map (fun r => r.funds_utilized.finValue)) = true →
      (getDashboard toNumber plus db month).totalFundsUtilized
        = Num.fin ((findByMonth db month).map (fun r => r.funds_utilized.finValue)).sum) ∧
    ((∀ d ∈ db, d.report.month ≠ month) →
      getDashboard toNumber plus db month
        = { totalNgosReporting := 0, totalPeopleHelped := Num.fin 0,
            totalEventsConducted := Num.fin 0, totalFundsUtilized := Num.fin 0 }) := by
  refine ⟨?_, ?_, ?_, ?_, ?_, ?_, ?_, ?_⟩
  · unfold getDashboard
    dsimp only
    rw [aggregate_fold_ngos]
    obtain ⟨hnd, hset⟩ := setAdd_fold ((findByMonth db month).map Report.ngo_id) []
      List.nodup_nil
    rw [← List.toFinset_card_of_nodup hnd, hset]
    simp
  · rw [getDashboard_people_addends]
    exact addends_js toNumber plus Report.people_helped db month
      (fun r hr => Or.inr (hnum r hr).1)
  · rw [getDashboard_events_addends]
    exact addends_js toNumber plus Report.events_conducted db month
      (fun r hr => Or.inr (hnum r hr).2.1)
  · rw [getDashboard_funds_addends]
    exact addends_js toNumber plus Report.funds_utilized db month
      (fun r hr => Or.inr (hnum r hr).2.2)
  · intro hfin hex
    rw [getDashboard_people_addends]
    exact addends_exact toNumber plus Report.people_helped db month
      (fun r hr => Or.inr (hfin r hr)) hex
  · intro hfin hex
    rw [getDashboard_events_addends]
    exact addends_exact toNumber plus Report.events_conducted db month
      (fun r hr => Or.inr (hfin r hr)) hex
  · intro hfin hex
    rw [getDashboard_funds_addends]
    exact addends_exact toNumber plus Report.funds_utilized db month
      (fun r hr => Or.inr (hfin r hr)) hex
  · intro hnone
    have hempty : findByMonth db month = [] := by
      unfold findByMonth
      rw [List.map_eq_nil_iff, List.filter_eq_nil_iff]
      intro d hd
      simpa using hnone d hd
    unfold getDashboard
    rw [hempty]
    rfl

theorem getDashboard_totals_witness :
    (∀ r ∈ findByMonth sampleDb "2025-01", r.people_helped.isNumber = true ∧
      r.events_conducted.isNumber = true ∧ r.funds_utilized.isNumber = true) ∧
    ((findByMonth sampleDb "2025-01").map Report.ngo_id = ["NGO1", "NGO2", "NGO1"] ∧
      (getDashboard decimalNumber exactPlus sampleDb "2025-01").totalNgosReporting = 2) ∧
    (getDashboard decimalNumber exactPlus sampleDb "2025-01").totalPeopleHelped = Num.fin 18 ∧
    (getDashboard decimalNumber exactPlus sampleDb "2025-01").totalEventsConducted = Num.fin 6 ∧
    (getDashboard decimalNumber exactPlus sampleDb "2025-01").totalFundsUtilized = Num.fin 180 := by
  have h := getDashboard_totals decimalNumber exactPlus sampleDb "2025-01" (by decide)
  have hf : findByMonth sampleDb "2025-01"
      = [ { ngo_id := "NGO1", month := "2025-01", people_helped := JSVal.num (Num.fin 10),
            events_conducted := JSVal.num (Num.fin 0), funds_utilized := JSVal.num (Num.fin 100) },
          { ngo_id := "NGO2", month := "2025-01", people_helped := JSVal.num (Num.fin 5),
            events_conducted := JSVal.num (Num.fin 2), funds_utilized := JSVal.num (Num.fin 50) },
          { ngo_id := "NGO1", month := "2025-01", people_helped := JSVal.num (Num.fin 3),
            events_conducted := JSVal.num (Num.fin 4), funds_utilized := JSVal.num (Num.fin 30) } ] := by
    decide
  refine ⟨by decide, ⟨by decide, by decide⟩, ?_, ?_, ?_⟩
  · rw [h.2.1, hf]
    simp [jsSum, JSVal.numValue, Num.isNaN, Num.add, exactPlus, Num.zero]
    norm_num
  · rw [h.2.2.1, hf]
    simp [jsSum, JSVal.numValue, Num.isNaN, Num.add, exactPlus, Num.zero]
    norm_num
  · rw [h.2.2.2.1, hf]
    simp [jsSum, JSVal.numValue, Num.isNaN, Num.add, exactPlus, Num.zero]
    norm_num

/-! ## Lemmas on validation -/

theorem pushIf_eq (c : Bool) (msg : String) (errors : List String) :
    pushIf c msg errors = errors ++ (if c then [msg] else []) := by
  unfold pushIf
  split_ifs <;> simp

/-- The errors of `validateRow`, check by check. -/
theorem validateRow_errors_eq (toNumber : String → Num) (n : NormRow) :
    (validateRow toNumber n).errors
      = (if textTruthy n.ngoId then [] else ["Missing NGO ID"]) ++
        (if textTruthy n.monthRaw then [] else ["Missing month"]) ++
        (if monthPattern (monthTested n) then [] else ["Month must be YYYY-MM"]) ++
        (if (numberOrZero toNumber n.peopleHelped).isNaN ||
              (numberOrZero toNumber n.peopleHelped).ltZero
          then ["people_helped must be a non-negative number"] else []) ++
        (if (numberOrZero toNumber n.eventsConducted).isNaN ||
              (numberOrZero toNumber n.eventsConducted).ltZero
          then ["events_conducted must be a non-negative number"] else []) ++
        (if (numberOrZero toNumber n.fundsUtilized).isNaN ||
              (numberOrZero toNumber n.fundsUtilized).ltZero
          then ["funds_utilized must be a non-negative number"] else []) := by
  unfold validateRow monthTested
  simp only [pushIf_eq, List.nil_append]
  cases textTruthy n.ngoId <;> cases textTruthy n.monthRaw <;>
    cases monthPattern ((textOr (Option.map jsTrim n.monthRaw) (some "")).getD "") <;> simp

/-- Validity of a row, check by check. -/
theorem validateRow_isValid_iff (toNumber : String → Num) (n : NormRow) :
    (validateRow toNumber n).isValid = true ↔
      textTruthy n.ngoId = true ∧ textTruthy n.monthRaw = true ∧
      monthPattern (monthTested n) = true ∧
      ((numberOrZero toNumber n.peopleHelped).isNaN ||
        (numberOrZero toNumber n.peopleHelped).ltZero) = false ∧
      ((numberOrZero toNumber n.eventsConducted).isNaN ||
        (numberOrZero toNumber n.eventsConducted).ltZero) = false ∧
      ((numberOrZero toNumber n.fundsUtilized).isNaN ||
        (numberOrZero toNumber n.fundsUtilized).ltZero) = false := by
  have he := validateRow_errors_eq toNumber n
  have hv : (validateRow toNumber n).isValid
      = decide ((validateRow toNumber n).errors.length = 0) := rfl
  rw [hv, he]
  cases textTruthy n.ngoId <;> cases textTruthy n.monthRaw <;>
    cases monthPattern (monthTested n) <;>
    cases ((numberOrZero toNumber n.peopleHelped).isNaN ||
        (numberOrZero toNumber n.peopleHelped).ltZero) <;>
    cases ((numberOrZero toNumber n.eventsConducted).isNaN ||
        (numberOrZero toNumber n.eventsConducted).ltZero) <;>
    cases ((numberOrZero toNumber n.fundsUtilized).isNaN ||
        (numberOrZero toNumber n.fundsUtilized).ltZero) <;> simp

theorem isDigit_not_space (c : Char) (h : isDigit c = true) : isJsSpace c = false := by
  unfold isDigit at h
  unfold isJsSpace
  simp only [Bool.and_eq_true, decide_eq_true_eq] at h
  simp only [Bool.or_eq_false_iff, Bool.and_eq_false_iff, decide_eq_false_iff_not]
  omega

/-- A text of the month shape has no white space for `trim` to strip. -/
theorem monthPattern_trim (s : String) (h : monthPattern s = true) : jsTrim s = s := by
  unfold monthPattern at h
  have hd : trimChars s.data = s.data := by
    generalize s.data = cs at h
    unfold monthPatternChars at h
    split at h
    · rename_i a b c d hy e f
      simp only [Bool.and_eq_true, decide_eq_true_eq] at h
      obtain ⟨⟨⟨⟨⟨⟨ha, _⟩, _⟩, _⟩, _⟩, _⟩, hf⟩ := h
      have ha' := isDigit_not_space a ha
      have hf' := isDigit_not_space f hf
      simp [trimChars, List.dropWhile, ha', hf']
    · simp at h
  unfold jsTrim
  rw [hd]

/-! ## C7 -/

/-- C7: the code at the failing input. An organization id of two spaces is empty after
trimming, yet `validateRow` reports no `Missing NGO ID` and marks the row valid, and
`POST /report` hands `upsertReport` a report whose `ngo_id` is the empty string. -/
theorem blank_id_is_accepted :
    jsTrim "  " = "" ∧
    (validateRow decimalNumber blankIdRow).isValid = true ∧
    "Missing NGO ID" ∉ (validateRow decimalNumber blankIdRow).errors ∧
    (rowReport blankIdRow (validateRow decimalNumber blankIdRow)).ngo_id = "" ∧
    (postReport decimalNumber (bodyOf blankIdRow)).toOption
      = some { ngo_id := "", month := "2025-01", people_helped := JSVal.num (Num.fin 0),
               events_conducted := JSVal.num (Num.fin 0),
               funds_utilized := JSVal.num (Num.fin 0) } := by
  decide

/-! ## C8 -/

/-- C8, as the claim states it, fails: for a month with a leading space, `validateRow`
marks the values valid, with the trimmed month, while `POST /report` answers 400 for
the same values. -/
theorem padded_month_splits_paths :
    (validateRow decimalNumber paddedMonthRow).isValid = true ∧
    (validateRow decimalNumber paddedMonthRow).month = some "2025-01" ∧
    (validateRow decimalNumber (normalizeRow (sampleRow "NGO1" " 2025-01" "10"))).isValid = true ∧
    bodyOf (normalizeRow (sampleRow "NGO1" " 2025-01" "10")) = bodyOf paddedMonthRow ∧
    (postReport decimalNumber (bodyOf paddedMonthRow)).toOption = none := by
  decide

/-- C8, amended: for every five values, those of every `normalizeRow` result among
them, `POST /report` accepts them and hands a report to `upsertReport` exactly when
`validateRow` marks them valid and the month has no leading or trailing white space;
the report is then the one `processJob` hands to `upsertReport` for a row with these
values: the same `ngo_id`, month and three numbers. -/
theorem postReport_iff_validateRow (toNumber : String → Num) (n : NormRow) (rep : Report) :
    postReport toNumber (bodyOf n) = .ok rep ↔
      ((validateRow toNumber n).isValid = true ∧ n.monthRaw.map jsTrim = n.monthRaw ∧
        rep = rowReport n (validateRow toNumber n)) := by
  rw [validateRow_isValid_iff]
  have hnums : ([numberOrZero toNumber n.peopleHelped, numberOrZero toNumber n.eventsConducted,
        numberOrZero toNumber n.fundsUtilized].any (fun x => x.isNaN || x.ltZero)) = false ↔
      ((numberOrZero toNumber n.peopleHelped).isNaN ||
        (numberOrZero toNumber n.peopleHelped).ltZero) = false ∧
      ((numberOrZero toNumber n.eventsConducted).isNaN ||
        (numberOrZero toNumber n.eventsConducted).ltZero) = false ∧
      ((numberOrZero toNumber n.fundsUtilized).isNaN ||
        (numberOrZero toNumber n.fundsUtilized).ltZero) = false := by
    simp only [List.any_cons, List.any_nil, Bool.or_false, Bool.or_eq_false_iff]
  have hrep : rowReport n (validateRow toNumber n)
      = { ngo_id := jsTrim (n.ngoId.getD ""), month := (n.monthRaw.map jsTrim).getD "",
          people_helped := JSVal.num (numberOrZero toNumber n.peopleHelped),
          events_conducted := JSVal.num (numberOrZero toNumber n.eventsConducted),
          funds_utilized := JSVal.num (numberOrZero toNumber n.fundsUtilized) } := rfl
  rw [hrep]
  unfold postReport bodyOf
  dsimp only
  cases hid : n.ngoId with
  | none => simp [textTruthy]
  | some ngoId =>
      cases hm : n.monthRaw with
      | none => simp [textTruthy]
      | some month =>
          have htested : monthPattern month = true →
              monthTested n = month ∧ jsTrim month = month := by
            intro hp
            have ht := monthPattern_trim month hp
            refine ⟨?_, ht⟩
            unfold monthTested
            rw [hm]
            simp only [Option.map_some', ht, textOr, textTruthy]
            split_ifs <;> simp_all
          by_cases hidt : textTruthy (some ngoId) = true
          · by_cases hmt : textTruthy (some month) = true
            · by_cases hp : monthPattern month = true
              · obtain ⟨ht1, ht2⟩ := htested hp
                simp only [hidt, hmt, hp, ht1, ht2, Bool.not_true, Bool.or_self, Bool.false_eq_true,
                  if_false, Option.getD_some, Option.map_some', true_and]
                by_cases hn : ([numberOrZero toNumber n.peopleHelped,
                    numberOrZero toNumber n.eventsConducted,
                    numberOrZero toNumber n.fundsUtilized].any
                      (fun x => x.isNaN || x.ltZero)) = true
                · have hn' : ¬ (((numberOrZero toNumber n.peopleHelped).isNaN ||
                        (numberOrZero toNumber n.peopleHelped).ltZero) = false ∧
                      ((numberOrZero toNumber n.eventsConducted).isNaN ||
                        (numberOrZero toNumber n.eventsConducted).ltZero) = false ∧
                      ((numberOrZero toNumber n.fundsUtilized).isNaN ||
                        (numberOrZero toNumber n.fundsUtilized).ltZero) = false) := by
                    rw [← hnums, hn]; simp
                  rw [if_pos hn]
                  constructor
                  · intro h; cases h
                  · rintro ⟨h, _⟩; exact absurd h hn'
                · have hn2 := Bool.eq_false_iff.2 hn
                  rw [if_neg hn]
                  constructor
                  · intro h
                    refine ⟨hnums.1 hn2, ?_⟩
                    cases h
                    rfl
                  · rintro ⟨_, h⟩
                    rw [h]
              · have hp2 := Bool.eq_false_iff.2 hp
                simp only [hidt, hmt, hp2, Bool.not_true, Bool.or_self, Bool.false_eq_true,
                  if_false, Option.getD_some, Bool.not_false, if_true, Option.map_some',
                  Option.some.injEq, true_and]
                constructor
                · intro h; cases h
                · rintro ⟨⟨hpat, _⟩, htrim, _⟩
                  have : monthTested n = month := by
                    unfold monthTested
                    rw [hm]
                    simp only [Option.map_some', htrim, textOr, hmt, if_true, Option.getD_some]
                  rw [this] at hpat
                  exact absurd hpat hp
            · have hmt2 := Bool.eq_false_iff.2 hmt
              simp [hidt, hmt2]
          · have hidt2 := Bool.eq_false_iff.2 hidt
            simp [hidt2]

/-! ## C9 -/

/-- When no progress update throws, the row loop runs to its end, and the progress
updates it writes leave the status alone and bring `processed_rows` to the number of
rows passed. -/
theorem rowLoop_completes (toNumber : String → Num) (env : Env)
    (hledger : ∀ i, env.updateJobProgress i = none) (rows : List Row) :
    ∀ st : LoopState, ∃ ws : List LedgerWrite,
      (rowLoop toNumber env rows st).2 = none ∧
      (rowLoop toNumber env rows st).1.writes = st.writes ++ ws ∧
      ∀ j : Job, j.processed_rows = st.processedRows →
        ∃ j' : Job, jobFrom j ws = some j' ∧ j'.status = j.status ∧
          j'.processed_rows = st.processedRows + rows.length := by
  induction rows with
  | nil =>
      intro st
      exact ⟨[], rfl, by simp [rowLoop], fun j hj => ⟨j, rfl, rfl, by simpa using hj⟩⟩
  | cons row rest ih =>
      intro st
      have h1 := rowStep_processedRows toNumber env row st
      have h2 := rowStep_writes toNumber env row st
      obtain ⟨ws, hdone, hwrites, hjob⟩ := ih
        { rowStep toNumber env row st with
          writes := (rowStep toNumber env row st).writes ++
            [LedgerWrite.updateJobProgress (rowStep toNumber env row st).progress] }
      refine ⟨LedgerWrite.updateJobProgress (rowStep toNumber env row st).progress :: ws,
        ?_, ?_, ?_⟩
      · unfold rowLoop
        dsimp only
        rw [hledger]
        exact hdone
      · unfold rowLoop
        dsimp only
        rw [hledger]
        dsimp only
        rw [hwrites, h2]
        simp
      · intro j _
        obtain ⟨j', hj', hs, hp⟩ := hjob
          (updateJobProgress j (rowStep toNumber env row st).progress)
          (by simp [updateJobProgress, LoopState.progress])
        refine ⟨j', ?_, ?_, ?_⟩
        · simpa [jobFrom, LedgerWrite.apply] using hj'
        · rw [hs]; rfl
        · rw [hp]
          dsimp only
          rw [h1, List.length_cons]
          omega

/-- C9: in `processJob`, a valid row whose `upsertReport` throws is counted as a
failed row, with `failureCount` one higher, the entry `{row, errors: ['DB error']}`
appended and nothing stored, and the loop goes on with the rows after it; and when
the file parses and no ledger write throws, the job ends `completed` with
`processed_rows` equal to the number of parsed rows, whatever the store does. -/
theorem processJob_absorbs_store_failure (toNumber : String → Num) (env : Env) :
    (∀ (row : Row) (rest : List Row) (st : LoopState),
      (validateRow toNumber (normalizeRow row)).isValid = true →
      env.upsertOk st.processedRows = false →
      rowStep toNumber env row st
        = { st with failureCount := st.failureCount + 1,
                    errors := st.errors ++ [ErrorEntry.row (st.processedRows + 1) ["DB error"]],
                    processedRows := st.processedRows + 1 } ∧
      (env.updateJobProgress st.processedRows = none →
        rowLoop toNumber env (row :: rest) st
          = rowLoop toNumber env rest
              { rowStep toNumber env row st with
                writes := st.writes ++
                  [LedgerWrite.updateJobProgress (rowStep toNumber env row st).progress] })) ∧
    (∀ (reports : ReportsDb) (rows : List Row) (j : Job),
      env.parseFile = .ok rows → (∀ i, env.updateJobProgress i = none) →
      env.completeJob = none → j.processed_rows = 0 →
      ∃ j' : Job, jobFrom j (processJob toNumber env reports).2 = some j' ∧
        j'.status = Status.completed ∧ j'.processed_rows = rows.length) := by
  constructor
  · intro row rest st hvalid hfail
    constructor
    · unfold rowStep
      simp [hvalid, hfail]
    · intro hok
      conv_lhs => unfold rowLoop
      dsimp only
      rw [hok]
      dsimp only
      rw [rowStep_writes]
  · intro reports rows j hrows hledger hcomplete hj
    obtain ⟨ws, hdone, hwrites, hjob⟩ :=
      rowLoop_completes toNumber env hledger rows (loopStart reports)
    obtain ⟨j', hj', hs, hp⟩ := hjob j (by simpa [loopStart] using hj)
    refine ⟨completeJob j', ?_, rfl, ?_⟩
    · unfold processJob
      rw [hrows]
      dsimp only
      rcases hloop : rowLoop toNumber env rows (loopStart reports) with ⟨st, thrown⟩
      rw [hloop] at hdone hwrites
      dsimp only at hdone hwrites
      subst hdone
      dsimp only
      rw [hcomplete]
      dsimp only
      rw [hwrites]
      simp only [loopStart, List.nil_append, jobFrom, List.foldl_append, List.foldl_cons,
        List.foldl_nil] at hj' ⊢
      rw [hj']
      rfl
    · have : (completeJob j').processed_rows = j'.processed_rows := rfl
      rw [this, hp]
      simp [loopStart]

theorem processJob_absorbs_store_failure_witness :
    ((validateRow decimalNumber (normalizeRow (sampleRow "NGO1" "2025-01" "10"))).isValid = true ∧
      envStoreFailure.upsertOk (loopStart []).processedRows = false ∧
      rowStep decimalNumber envStoreFailure (sampleRow "NGO1" "2025-01" "10") (loopStart [])
        = { processedRows := 1, successCount := 0, failureCount := 1,
            errors := [ErrorEntry.row 1 ["DB error"]], reports := [], writes := [] }) ∧
    (envStoreFailure.parseFile = .ok sampleRows ∧
      ∃ j' : Job, jobFrom jobStarted (processJob decimalNumber envStoreFailure []).2 = some j' ∧
        j'.status = Status.completed ∧ j'.processed_rows = sampleRows.length) :=
  ⟨⟨by decide, by decide,
      ((processJob_absorbs_store_failure decimalNumber envStoreFailure).1
        (sampleRow "NGO1" "2025-01" "10") [] (loopStart []) (by decide) (by decide)).1⟩,
    rfl,
    (processJob_absorbs_store_failure decimalNumber envStoreFailure).2 [] sampleRows jobStarted
      rfl (fun _ => rfl) rfl rfl⟩

/-! ## C10 -/

theorem monthTested_eq (n : NormRow) : monthTested n = (n.monthRaw.map jsTrim).getD "" := by
  unfold monthTested textOr
  cases n.monthRaw with
  | none => simp [textTruthy]
  | some s =>
      simp only [Option.map_some', textTruthy]
      split_ifs with h
      · rfl
      · simp only [decide_eq_true_eq, ne_eq, not_not] at h
        simp [h]

theorem optional_sublist (c : Bool) (m : String) : (if c then [m] else []).Sublist [m] := by
  cases c <;> simp

theorem optional_sublist_neg (c : Bool) (m : String) : (if c then [] else [m]).Sublist [m] := by
  cases c <;> simp

/-- C10: `validateRow` runs its six checks independently and collects every failure.
For every normalized row, `isValid` is true exactly when `errors` is empty; `errors` is
a sublist of the six messages in the fixed order organization id, month (missing, then
shape), people, events, funds, so each message occurs at most once; and each message
is present exactly when its own check fails: the organization id is missing or the
empty text, the month is missing or the empty text, the trimmed month is not 4 digits,
hyphen, 2 digits, or `Number(q || 0)` is `NaN` or negative for the quantity `q`. An
absent or empty quantity yields 0 and no message. -/
theorem validateRow_collects_all (toNumber : String → Num) (n : NormRow) :
    ((validateRow toNumber n).isValid = true ↔ (validateRow toNumber n).errors = []) ∧
    (validateRow toNumber n).errors.Sublist validationMessages ∧
    ("Missing NGO ID" ∈ (validateRow toNumber n).errors ↔ textTruthy n.ngoId = false) ∧
    ("Missing month" ∈ (validateRow toNumber n).errors ↔ textTruthy n.monthRaw = false) ∧
    ("Month must be YYYY-MM" ∈ (validateRow toNumber n).errors ↔
      monthPattern ((n.monthRaw.map jsTrim).getD "") = false) ∧
    ("people_helped must be a non-negative number" ∈ (validateRow toNumber n).errors ↔
      ((validateRow toNumber n).people.isNaN || (validateRow toNumber n).people.ltZero) = true) ∧
    ("events_conducted must be a non-negative number" ∈ (validateRow toNumber n).errors ↔
      ((validateRow toNumber n).events.isNaN || (validateRow toNumber n).events.ltZero) = true) ∧
    ("funds_utilized must be a non-negative number" ∈ (validateRow toNumber n).errors ↔
      ((validateRow toNumber n).funds.isNaN || (validateRow toNumber n).funds.ltZero) = true) ∧
    ((validateRow toNumber n).people = JSVal.toNum toNumber (n.peopleHelped.or (JSVal.num Num.zero)) ∧
      (validateRow toNumber n).events = JSVal.toNum toNumber (n.eventsConducted.or (JSVal.num Num.zero)) ∧
      (validateRow toNumber n).funds = JSVal.toNum toNumber (n.fundsUtilized.or (JSVal.num Num.zero))) ∧
    (n.peopleHelped.truthy = false → (validateRow toNumber n).people = Num.fin 0 ∧
      "people_helped must be a non-negative number" ∉ (validateRow toNumber n).errors) ∧
    (n.eventsConducted.truthy = false → (validateRow toNumber n).events = Num.fin 0 ∧
      "events_conducted must be a non-negative number" ∉ (validateRow toNumber n).errors) ∧
    (n.fundsUtilized.truthy = false → (validateRow toNumber n).funds = Num.fin 0 ∧
      "funds_utilized must be a non-negative number" ∉ (validateRow toNumber n).errors) := by
  have he := validateRow_errors_eq toNumber n
  have hp : (validateRow toNumber n).people = numberOrZero toNumber n.peopleHelped := rfl
  have hev : (validateRow toNumber n).events = numberOrZero toNumber n.eventsConducted := rfl
  have hf : (validateRow toNumber n).funds = numberOrZero toNumber n.fundsUtilized := rfl
  have hv : (validateRow toNumber n).isValid
      = decide ((validateRow toNumber n).errors.length = 0) := rfl
  rw [← monthTested_eq, hp, hev, hf]
  have hmem1 : "Missing NGO ID" ∈ (validateRow toNumber n).errors ↔
      textTruthy n.ngoId = false := by
    rw [he]
    cases textTruthy n.ngoId <;> cases textTruthy n.monthRaw <;>
      cases monthPattern (monthTested n) <;>
      cases ((numberOrZero toNumber n.peopleHelped).isNaN ||
          (numberOrZero toNumber n.peopleHelped).ltZero) <;>
      cases ((numberOrZero toNumber n.eventsConducted).isNaN ||
          (numberOrZero toNumber n.eventsConducted).ltZero) <;>
      cases ((numberOrZero toNumber n.fundsUtilized).isNaN ||
          (numberOrZero toNumber n.fundsUtilized).ltZero) <;> simp
  have hmem2 : "Missing month" ∈ (validateRow toNumber n).errors ↔
      textTruthy n.monthRaw = false := by
    rw [he]
    cases textTruthy n.ngoId <;> cases textTruthy n.monthRaw <;>
      cases monthPattern (monthTested n) <;>
      cases ((numberOrZero toNumber n.peopleHelped).isNaN ||
          (numberOrZero toNumber n.peopleHelped).ltZero) <;>
      cases ((numberOrZero toNumber n.eventsConducted).isNaN ||
          (numberOrZero toNumber n.eventsConducted).ltZero) <;>
      cases ((numberOrZero toNumber n.fundsUtilized).isNaN ||
          (numberOrZero toNumber n.fundsUtilized).ltZero) <;> simp
  have hmem3 : "Month must be YYYY-MM" ∈ (validateRow toNumber n).errors ↔
      monthPattern (monthTested n) = false := by
    rw [he]
    cases textTruthy n.ngoId <;> cases textTruthy n.monthRaw <;>
      cases monthPattern (monthTested n) <;>
      cases ((numberOrZero toNumber n.peopleHelped).isNaN ||
          (numberOrZero toNumber n.peopleHelped).ltZero) <;>
      cases ((numberOrZero toNumber n.eventsConducted).isNaN ||
          (numberOrZero toNumber n.eventsConducted).ltZero) <;>
      cases ((numberOrZero toNumber n.fundsUtilized).isNaN ||
          (numberOrZero toNumber n.fundsUtilized).ltZero) <;> simp
  have hmem4 : "people_helped must be a non-negative number" ∈ (validateRow toNumber n).errors ↔
      ((numberOrZero toNumber n.peopleHelped).isNaN ||
        (numberOrZero toNumber n.peopleHelped).ltZero) = true := by
    rw [he]
    cases textTruthy n.ngoId <;> cases textTruthy n.monthRaw <;>
      cases monthPattern (monthTested n) <;>
      cases ((numberOrZero toNumber n.peopleHelped).isNaN ||
          (numberOrZero toNumber n.peopleHelped).ltZero) <;>
      cases ((numberOrZero toNumber n.eventsConducted).isNaN ||
          (numberOrZero toNumber n.eventsConducted).ltZero) <;>
      cases ((numberOrZero toNumber n.fundsUtilized).isNaN ||
          (numberOrZero toNumber n.fundsUtilized).ltZero) <;> simp
  have hmem5 : "events_conducted must be a non-negative number" ∈ (validateRow toNumber n).errors ↔
      ((numberOrZero toNumber n.eventsConducted).isNaN ||
        (numberOrZero toNumber n.eventsConducted).ltZero) = true := by
    rw [he]
    cases textTruthy n.ngoId <;> cases textTruthy n.monthRaw <;>
      cases monthPattern (monthTested n) <;>
      cases ((numberOrZero toNumber n.peopleHelped).isNaN ||
          (numberOrZero toNumber n.peopleHelped).ltZero) <;>
      cases ((numberOrZero toNumber n.eventsConducted).isNaN ||
          (numberOrZero toNumber n.eventsConducted).ltZero) <;>
      cases ((numberOrZero toNumber n.fundsUtilized).isNaN ||
          (numberOrZero toNumber n.fundsUtilized).ltZero) <;> simp
  have hmem6 : "funds_utilized must be a non-negative number" ∈ (validateRow toNumber n).errors ↔
      ((numberOrZero toNumber n.fundsUtilized).isNaN ||
        (numberOrZero toNumber n.fundsUtilized).ltZero) = true := by
    rw [he]
    cases textTruthy n.ngoId <;> cases textTruthy n.monthRaw <;>
      cases monthPattern (monthTested n) <;>
      cases ((numberOrZero toNumber n.peopleHelped).isNaN ||
          (numberOrZero toNumber n.peopleHelped).ltZero) <;>
      cases ((numberOrZero toNumber n.eventsConducted).isNaN ||
          (numberOrZero toNumber n.eventsConducted).ltZero) <;>
      cases ((numberOrZero toNumber n.fundsUtilized).isNaN ||
          (numberOrZero toNumber n.fundsUtilized).ltZero) <;> simp
  refine ⟨?_, ?_, hmem1, hmem2, hmem3, hmem4, hmem5, hmem6, ⟨rfl, rfl, rfl⟩, ?_, ?_, ?_⟩
  · rw [hv]
    simp [List.length_eq_zero]
  · rw [he]
    have hm : validationMessages
        = ["Missing NGO ID"] ++ ["Missing month"] ++ ["Month must be YYYY-MM"] ++
          ["people_helped must be a non-negative number"] ++
          ["events_conducted must be a non-negative number"] ++
          ["funds_utilized must be a non-negative number"] := rfl
    rw [hm]
    exact (((((optional_sublist_neg _ _).append (optional_sublist_neg _ _)).append
      (optional_sublist_neg _ _)).append (optional_sublist _ _)).append
      (optional_sublist _ _)).append (optional_sublist _ _)
  · intro h
    have h0 := numberOrZero_absent toNumber _ h
    refine ⟨h0, ?_⟩
    rw [hmem4, h0]
    decide
  · intro h
    have h0 := numberOrZero_absent toNumber _ h
    refine ⟨h0, ?_⟩
    rw [hmem5, h0]
    decide
  · intro h
    have h0 := numberOrZero_absent toNumber _ h
    refine ⟨h0, ?_⟩
    rw [hmem6, h0]
    decide

theorem validateRow_collects_all_witness :
    (validateRow decimalNumber brokenRow).errors
      = ["Missing NGO ID", "Missing month", "Month must be YYYY-MM",
         "people_helped must be a non-negative number"] ∧
    (validateRow decimalNumber brokenRow).isValid = false ∧
    brokenRow.eventsConducted.truthy = false ∧
    ((validateRow decimalNumber brokenRow).events = Num.fin 0 ∧
      "events_conducted must be a non-negative number" ∉
        (validateRow decimalNumber brokenRow).errors) :=
  ⟨by decide, by decide, by decide,
    (validateRow_collects_all decimalNumber brokenRow).2.2.2.2.2.2.2.2.2.2.1 (by decide)⟩

/-! ## C11 -/

theorem Num.add_nan_right (plus : Rat → Rat → Num) (a : Num) : a.add plus Num.nan = Num.nan := by
  cases a <;> rfl

theorem foldl_add_nan_start (plus : Rat → Rat → Num) (xs : List Num) :
    xs.foldl (Num.add plus) Num.nan = Num.nan := by
  induction xs with
  | nil => rfl
  | cons x xs ih => simpa [List.foldl_cons, Num.add] using ih

/-- A sum with a `NaN` among its addends is `NaN`. -/
theorem foldl_add_nan (plus : Rat → Rat → Num) (xs : List Num) (h : Num.nan ∈ xs) :
    ∀ a : Num, xs.foldl (Num.add plus) a = Num.nan := by
  induction xs with
  | nil => simp at h
  | cons x xs ih =>
      intro a
      rw [List.foldl_cons]
      rcases List.mem_cons.1 h with hx | hx
      · rw [← hx, Num.add_nan_right, foldl_add_nan_start]
      · exact ih hx _

theorem addends_nan (toNumber : String → Num) (plus : Rat → Rat → Num) (field : Report → JSVal)
    (db : ReportsDb) (month : String)
    (h : ∃ r ∈ findByMonth db month, ∃ s, field r = JSVal.str s ∧ s ≠ "" ∧ toNumber s = Num.nan) :
    (addends toNumber field db month).foldl (Num.add plus) Num.zero = Num.nan := by
  obtain ⟨r, hr, s, hs, hne, hnan⟩ := h
  apply foldl_add_nan
  unfold addends
  rw [List.mem_map]
  refine ⟨r, hr, ?_⟩
  rw [hs]
  simp [numberOrZero, JSVal.or, JSVal.truthy, hne, JSVal.toNum, hnan]

/-- C11, as the claim states it, fails: with 10 and the text `abc` stored in
`people_helped` for the month, `Number` of the text is `NaN` and so is the total, not
the sum 10 of the numeric stored values. -/
theorem getDashboard_text_gives_nan :
    (findByMonth dbWithText "2025-01").map Report.people_helped
      = [JSVal.num (Num.fin 10), JSVal.str "abc"] ∧
    decimalNumber "abc" = Num.nan ∧
    (getDashboard decimalNumber exactPlus dbWithText "2025-01").totalPeopleHelped = Num.nan ∧
    (getDashboard decimalNumber exactPlus dbWithText "2025-01").totalPeopleHelped ≠ Num.fin 10 := by
  decide

/-- C11, amended: for every collection and every month, `getDashboard` counts as 0 a
stored value that is falsy, which covers a missing value, `null`, `false`, the empty
text, 0 and `NaN`, and counts a number other than `NaN` as itself: when the values of
a field over the reports of the month are all falsy or such numbers, the total of that
field is the sum of these counted values as JavaScript computes it, from 0 with `+` in
the order of the query, for every behaviour of the addition of doubles; and where the
values are falsy or finite and no step of that addition rounds or overflows, the total
is the exact sum of the finite stored numbers. A non-empty text is converted by
`Number`, and when `Number` gives `NaN` for one of them the total of that field is
`NaN`. -/
theorem getDashboard_missing_as_zero (toNumber : String → Num) (plus : Rat → Rat → Num)
    (db : ReportsDb) (month : String) :
    ((∀ r ∈ findByMonth db month,
        r.people_helped.truthy = false ∨ r.people_helped.isNumber = true) →
      (getDashboard toNumber plus db month).totalPeopleHelped
        = jsSum plus ((findByMonth db month).map (fun r => r.people_helped.numValue))) ∧
    ((∀ r ∈ findByMonth db month,
        r.events_conducted.truthy = false ∨ r.events_conducted.isNumber = true) →
      (getDashboard toNumber plus db month).totalEventsConducted
        = jsSum plus ((findByMonth db month).map (fun r => r.events_conducted.numValue))) ∧
    ((∀ r ∈ findByMonth db month,
        r.funds_utilized.truthy = false ∨ r.funds_utilized.isNumber = true) →
      (getDashboard toNumber plus db month).totalFundsUtilized
        = jsSum plus ((findByMonth db month).map (fun r => r.funds_utilized.numValue))) ∧
    ((∀ r ∈ findByMonth db month,
        r.people_helped.truthy = false ∨ r.people_helped.isFinite = true) →
      exactFrom plus 0 ((findByMonth db month).map (fun r => r.people_helped.finValue)) = true →
      (getDashboard toNumber plus db month).totalPeopleHelped
        = Num.fin ((findByMonth db month).map (fun r => r.people_helped.finValue)).sum) ∧
    ((∀ r ∈ findByMonth db month,
        r.events_conducted.truthy = false ∨ r.events_conducted.isFinite = true) →
      exactFrom plus 0 ((findByMonth db month).map (fun r => r.events_conducted.finValue)) = true →
      (getDashboard toNumber plus db month).totalEventsConducted
        = Num.fin ((findByMonth db month).map (fun r => r.events_conducted.finValue)).sum) ∧
    ((∀ r ∈ findByMonth db month,
        r.funds_utilized.truthy = false ∨ r.funds_utilized.isFinite = true) →
      exactFrom plus 0 ((findByMonth db month).map (fun r => r.funds_utilized.finValue)) = true →
      (getDashboard toNumber plus db month).totalFundsUtilized
        = Num.fin ((findByMonth db month).map (fun r => r.funds_utilized.finValue)).sum) ∧
    ((∃ r ∈ findByMonth db month, ∃ s,
        r.people_helped = JSVal.str s ∧ s ≠ "" ∧ toNumber s = Num.nan) →
      (getDashboard toNumber plus db month).totalPeopleHelped = Num.nan) ∧
    ((∃ r ∈ findByMonth db month, ∃ s,
        r.events_conducted = JSVal.str s ∧ s ≠ "" ∧ toNumber s = Num.nan) →
      (getDashboard toNumber plus db month).totalEventsConducted = Num.nan) ∧
    ((∃ r ∈ findByMonth db month, ∃ s,
        r.funds_utilized = JSVal.str s ∧ s ≠ "" ∧ toNumber s = Num.nan) →
      (getDashboard toNumber plus db month).totalFundsUtilized = Num.nan) := by
  rw [getDashboard_people_addends, getDashboard_events_addends, getDashboard_funds_addends]
  exact ⟨addends_js toNumber plus Report.people_helped db month,
    addends_js toNumber plus Report.events_conducted db month,
    addends_js toNumber plus Report.funds_utilized db month,
    addends_exact toNumber plus Report.people_helped db month,
    addends_exact toNumber plus Report.events_conducted db month,
    addends_exact toNumber plus Report.funds_utilized db month,
    addends_nan toNumber plus Report.people_helped db month,
    addends_nan toNumber plus Report.events_conducted db month,
    addends_nan toNumber plus Report.funds_utilized db month⟩

theorem getDashboard_missing_as_zero_witness :
    ((findByMonth dbWithText "2025-01").map Report.events_conducted
        = [JSVal.num (Num.fin 2), JSVal.undef] ∧
      (∀ r ∈ findByMonth dbWithText "2025-01",
        r.events_conducted.truthy = false ∨ r.events_conducted.isNumber = true) ∧
      (getDashboard decimalNumber exactPlus dbWithText "2025-01").totalEventsConducted
        = Num.fin 2) ∧
    ((findByMonth dbWithText "2025-01").map Report.funds_utilized
        = [JSVal.num (Num.fin 50), JSVal.null] ∧
      (∀ r ∈ findByMonth dbWithText "2025-01",
        r.funds_utilized.truthy = false ∨ r.funds_utilized.isFinite = true) ∧
      exactFrom exactPlus 0
        ((findByMonth dbWithText "2025-01").map (fun r => r.funds_utilized.finValue)) = true ∧
      (getDashboard decimalNumber exactPlus dbWithText "2025-01").totalFundsUtilized
        = Num.fin 50) ∧
    ((∃ r ∈ findByMonth dbWithText "2025-01", ∃ s,
        r.people_helped = JSVal.str s ∧ s ≠ "" ∧ decimalNumber s = Num.nan) ∧
      (getDashboard decimalNumber exactPlus dbWithText "2025-01").totalPeopleHelped
        = Num.nan) := by
  have h := getDashboard_missing_as_zero decimalNumber exactPlus dbWithText "2025-01"
  have hx : ∃ r ∈ findByMonth dbWithText "2025-01", ∃ s,
      r.people_helped = JSVal.str s ∧ s ≠ "" ∧ decimalNumber s = Num.nan :=
    ⟨{ ngo_id := "NGO2", month := "2025-01", people_helped := JSVal.str "abc",
       events_conducted := JSVal.undef, funds_utilized := JSVal.null },
      by decide, "abc", rfl, by decide, by decide⟩
  have hf : findByMonth dbWithText "2025-01"
      = [ { ngo_id := "NGO1", month := "2025-01", people_helped := JSVal.num (Num.fin 10),
            events_conducted := JSVal.num (Num.fin 2), funds_utilized := JSVal.num (Num.fin 50) },
          { ngo_id := "NGO2", month := "2025-01", people_helped := JSVal.str "abc",
            events_conducted := JSVal.undef, funds_utilized := JSVal.null } ] := by
    decide
  have hex : exactFrom exactPlus 0
      ((findByMonth dbWithText "2025-01").map (fun r => r.funds_utilized.finValue)) = true := by
    rw [hf]
    simp [exactFrom, exactPlus]
  refine ⟨⟨by decide, by decide, ?_⟩, ⟨by decide, by decide, hex, ?_⟩, hx, h.2.2.2.2.2.2.1 hx⟩
  · rw [h.2.1 (by decide), hf]
    simp [jsSum, JSVal.numValue, Num.isNaN, Num.add, exactPlus, Num.zero]
  · rw [h.2.2.2.2.2.1 (by decide) hex, hf]
    simp [JSVal.finValue]

/-! ## C12 -/

/-- C12: the key `ngo_id + ':' + month` built by `upsertReport` identifies the pair
when the months have the shape 4 digits, hyphen, 2 digits: for all reports with such
months, equal keys give equal `ngo_id` and equal `month`, whatever characters the ids
hold, a colon included; so a write for one pair leaves in place the report a sequence
of earlier writes stored for another pair. -/
theorem ngoMonthKey_identifies_pair (r1 r2 : Report)
    (h1 : monthPattern r1.month = true) (h2 : monthPattern r2.month = true) :
    (ngoMonthKey r1 = ngoMonthKey r2 → r1.ngo_id = r2.ngo_id ∧ r1.month = r2.month) ∧
    (∀ calls : List Report, samePair r1 r2 = false → docOf r1 ∈ upsertAll calls →
      docOf r1 ∈ upsertReport (upsertAll calls) r2) := by
  have hinj : ngoMonthKey r1 = ngoMonthKey r2 → r1.ngo_id = r2.ngo_id ∧ r1.month = r2.month := by
    intro hk
    have hd : r1.ngo_id.data ++ [':'] ++ r1.month.data
        = r2.ngo_id.data ++ [':'] ++ r2.month.data := by
      have := congrArg String.data hk
      simpa [ngoMonthKey, String.data_append] using this
    have hlen : r1.month.data.length = r2.month.data.length := by
      rw [monthPattern_length _ h1, monthPattern_length _ h2]
    obtain ⟨hpre, hmonth⟩ := List.append_inj' hd hlen
    have hid : r1.ngo_id.data = r2.ngo_id.data := List.append_cancel_right hpre
    exact ⟨String.ext hid, String.ext hmonth⟩
  refine ⟨hinj, ?_⟩
  intro calls hpair hmem
  have hnd := (upsertAll_invariant calls).1
  rw [upsertReport_mem _ r2 hnd]
  right
  refine ⟨hmem, ?_⟩
  intro hk
  have hsame := hinj hk
  simp only [samePair, decide_eq_false_iff_not] at hpair
  exact hpair hsame

theorem ngoMonthKey_identifies_pair_witness :
    (monthPattern reportColonId.month = true ∧ monthPattern reportPlainId.month = true) ∧
    (ngoMonthKey reportColonId = "N:1:2025-01" ∧ ngoMonthKey reportPlainId = "N:2025-01") ∧
    (samePair reportColonId reportPlainId = false ∧
      docOf reportColonId ∈ upsertAll [reportColonId] ∧
      docOf reportColonId ∈ upsertReport (upsertAll [reportColonId]) reportPlainId) :=
  ⟨⟨by decide, by decide⟩, ⟨by decide, by decide⟩, by decide, by decide,
    (ngoMonthKey_identifies_pair reportColonId reportPlainId (by decide) (by decide)).2
      [reportColonId] (by decide) (by decide)⟩

end NgoTracker
